import Mathlib

/-!
Shallow embedding of the order-execution and risk-management engine of the
stock-auto-trader repository (src/trading/risk_manager.py and
src/trading/executor.py), together with theorems settling the specification
claims about it.

Conventions of the embedding:
* Python floats are modelled as rationals (ℚ); the arithmetic the claims probe
  is exact at these magnitudes.
* `datetime.now()` is an explicit `now : ℚ` parameter (seconds).
* Python dicts keyed by strings are association lists with first-match lookup.
* A fallible broker call is an `Option`-valued oracle argument: `none` models
  the call raising an exception, `some v` a normal return of `v`.
* Mutating methods become state-passing functions on explicit state records;
  broker order placements are additionally collected in a `List BrokerOp`
  trace so that "no broker order is placed" is expressible.
-/

namespace StockTrader

set_option linter.unusedVariables false

/-- Association-list lookup, mirroring Python dict `.get(k)` / `k in d`. -/
def alistGet? {K A : Type} [BEq K] (m : List (K × A)) (k : K) : Option A :=
  match m.find? (fun p => p.1 == k) with
  | some p => some p.2
  | none => none

/-- Association-list insert/update, mirroring Python dict assignment `d[k] = v`. -/
def alistSet {K A : Type} [BEq K] (m : List (K × A)) (k : K) (v : A) : List (K × A) :=
  if (m.find? (fun p => p.1 == k)).isSome then
    m.map (fun p => if p.1 == k then (k, v) else p)
  else m ++ [(k, v)]

/-- Association-list removal, mirroring Python dict `d.pop(k, None)` / `del d[k]`. -/
def alistErase {K A : Type} [BEq K] (m : List (K × A)) (k : K) : List (K × A) :=
  m.filter (fun p => !(p.1 == k))

/-- Python `int()` applied to a rational: truncation toward zero. -/
def pyInt (q : ℚ) : ℤ := if 0 ≤ q then ⌊q⌋ else ⌈q⌉

/-- Trading market, mirroring the `market` string parameter ("KR" / "US"). -/
inductive Market
  | KR
  | US
deriving DecidableEq

/-- Result of `kis.get_cash_balance()` (keys total_eval / cash / total_pnl). -/
structure CashInfo where
  totalEval : ℚ
  cash : ℚ
  totalPnl : ℚ
deriving DecidableEq

/-- Broker position snapshot row (core/broker.py `Position`). -/
structure Position where
  symbol : String
  pname : String
  qty : ℤ
  avgPrice : ℚ
  currentPrice : ℚ
  pnl : ℚ
  pnlPct : ℚ
  market : Market
deriving DecidableEq

/-- Strategy signal (strategies/base.py `Signal`). -/
inductive Signal
  | BUY
  | SELL
  | HOLD
deriving DecidableEq

/-- Broker order result, reduced to the fields the engine inspects. -/
structure OrderResult where
  success : Bool
  orderNo : String := ""
deriving DecidableEq

/-- A broker-side money-moving call issued by the executor
(`kis.buy_kr` / `kis.buy_us` / `kis.sell_kr` / `kis.sell_us` / `kis.cancel_kr`).
A price of 0 is a market order. -/
inductive BrokerOp
  | buyKR (symbol : String) (qty : ℤ) (price : ℤ)
  | buyUS (symbol : String) (qty : ℤ) (price : ℤ)
  | sellKR (symbol : String) (qty : ℤ) (price : ℤ)
  | sellUS (symbol : String) (qty : ℤ) (price : ℤ)
  | cancelKR (orderNo : String) (symbol : String) (qty : ℤ)
deriving DecidableEq

/-- Quantity carried by a broker order operation. -/
def BrokerOp.opQty : BrokerOp → ℤ
  | .buyKR _ q _ => q
  | .buyUS _ q _ => q
  | .sellKR _ q _ => q
  | .sellUS _ q _ => q
  | .cancelKR _ _ q => q

/-- Price carried by a broker order operation (0 for a cancel). -/
def BrokerOp.opPrice : BrokerOp → ℤ
  | .buyKR _ _ p => p
  | .buyUS _ _ p => p
  | .sellKR _ _ p => p
  | .sellUS _ _ p => p
  | .cancelKR _ _ _ => 0

/-- Cause recorded in `_halt_reason` when the halt flag is set. -/
inductive HaltCause
  | consecutiveLosses
  | dailyLoss
deriving DecidableEq

/-- Reason for a `can_trade` denial (the formatted reason string of the source,
reduced to its shape). -/
inductive DenyReason
  | maxTrades
  | cooldown (remainingMinutes : ℚ)
  | halted
  | dailyLoss
deriving DecidableEq

/-- RiskManager constructor parameters (risk_manager.py `__init__`). -/
structure RiskConfig where
  stopLossPct : ℚ := 5
  takeProfitPct : ℚ := 10
  trailingActivationPct : ℚ := 3
  trailingStopPct : ℚ := 2
  dailyMaxLossPct : ℚ := 3
  consecutiveLossLimit : ℕ := 3
  consecutiveLossCooldown : ℚ := 60
  maxDailyTrades : ℕ := 20
  totalBudget : ℚ := 0
  usdKrwRate : ℚ := 1450
deriving DecidableEq

/-- Mutable RiskManager state (the underscore-prefixed instance attributes). -/
structure RiskState where
  dynamicThresholds : List (String × (ℚ × ℚ)) := []
  highWatermarks : List (String × ℚ) := []
  consecutiveLosses : ℕ := 0
  lastLossTime : Option ℚ := none
  tradingHalted : Bool := false
  haltCause : Option HaltCause := none
  dailyLossCacheTime : Option ℚ := none
  dailyLossCacheOk : Bool := true
  cashCache : Option CashInfo := none
  cashCacheTime : Option ℚ := none
deriving DecidableEq

/-- `RiskManager._get_cash_info`: 30-second TTL cache over
`kis.get_cash_balance()`. `fetch = none` models the broker call raising; in
that case the cache is left untouched and the exception propagates (`none`). -/
def getCashInfo (fetch : Option CashInfo) (now : ℚ) (s : RiskState) :
    RiskState × Option CashInfo :=
  match s.cashCache, s.cashCacheTime with
  | some c, some t =>
      if now - t < 30 then (s, some c)
      else
        match fetch with
        | some c2 => ({ s with cashCache := some c2, cashCacheTime := some now }, some c2)
        | none => (s, none)
  | _, _ =>
      match fetch with
      | some c2 => ({ s with cashCache := some c2, cashCacheTime := some now }, some c2)
      | none => (s, none)

/-- Freshness test of the daily-loss cache (`< 60` seconds old). -/
def dailyLossCacheFresh (now : ℚ) (s : RiskState) : Bool :=
  match s.dailyLossCacheTime with
  | some t => decide (now - t < 60)
  | none => false

/-- `RiskManager._check_daily_loss_cached`: returns the cached verdict when
fresh; otherwise, when a positive total budget is configured, fetches the cash
snapshot and denies (setting the halt flag) when realized P&L is at or below
minus `totalBudget * dailyMaxLossPct / 100`. An exception from the fetch is
caught and the verdict stays allowed. The verdict is cached either way. -/
def checkDailyLossCached (cfg : RiskConfig) (fetch : Option CashInfo) (now : ℚ)
    (s : RiskState) : RiskState × Bool :=
  if dailyLossCacheFresh now s then (s, s.dailyLossCacheOk)
  else
    let step :=
      if 0 < cfg.totalBudget then
        match getCashInfo fetch now s with
        | (s', some ci) =>
            let maxLoss := cfg.totalBudget * (cfg.dailyMaxLossPct / 100)
            if ci.totalPnl ≤ -maxLoss then
              ({ s' with tradingHalted := true, haltCause := some HaltCause.dailyLoss }, false)
            else (s', true)
        | (s', none) => (s', true)
      else (s, true)
    ({ step.1 with dailyLossCacheTime := some now, dailyLossCacheOk := step.2 }, step.2)

/-- `RiskManager.can_trade`: three gates in order — daily trade-count cap,
consecutive-loss halt with cooldown clearing, daily-loss check (60 s cache).
Returns the updated state and `none` when trading is allowed, `some reason`
on a denial. `tradeCount` is `db.get_trade_count_today()`. -/
def canTrade (cfg : RiskConfig) (tradeCount : ℕ) (fetch : Option CashInfo)
    (now : ℚ) (s : RiskState) : RiskState × Option DenyReason :=
  if cfg.maxDailyTrades ≤ tradeCount then (s, some DenyReason.maxTrades)
  else
    let step2 : RiskState × Option DenyReason :=
      if s.tradingHalted then
        match s.lastLossTime with
        | some t =>
            let elapsed := (now - t) / 60
            if cfg.consecutiveLossCooldown ≤ elapsed then
              ({ s with tradingHalted := false, consecutiveLosses := 0, haltCause := none },
               none)
            else (s, some (DenyReason.cooldown (cfg.consecutiveLossCooldown - elapsed)))
        | none => (s, some DenyReason.halted)
      else (s, none)
    match step2 with
    | (s1, some r) => (s1, some r)
    | (s1, none) =>
        match checkDailyLossCached cfg fetch now s1 with
        | (s2, true) => (s2, none)
        | (s2, false) => (s2, some DenyReason.dailyLoss)

/-- `RiskManager.record_stop_loss`: increment the consecutive-loss counter,
timestamp it, and trip the halt once the configured limit is reached. -/
def recordStopLoss (cfg : RiskConfig) (now : ℚ) (s : RiskState) : RiskState :=
  let s1 := { s with consecutiveLosses := s.consecutiveLosses + 1, lastLossTime := some now }
  if cfg.consecutiveLossLimit ≤ s1.consecutiveLosses then
    { s1 with tradingHalted := true, haltCause := some HaltCause.consecutiveLosses }
  else s1

/-- `RiskManager.record_profit`: reset the consecutive-loss counter to zero. -/
def recordProfit (s : RiskState) : RiskState :=
  { s with consecutiveLosses := 0 }

/-- `RiskManager._calc_max_stocks`: step table from budget size to the number
of concurrently held symbols. -/
def calcMaxStocks (budget : ℚ) : ℕ :=
  if budget < 10000000 then 2
  else if budget < 30000000 then 3
  else if budget < 50000000 then 5
  else if budget < 100000000 then 7
  else 10

/-- `RiskManager.calculate_buy_qty`: per-symbol allocation is the base amount
(fixed total budget when positive, otherwise the live account total valuation)
divided by `calcMaxStocks`, capped at 95% of available cash; for the US market
the allocation is converted through the configured USD/KRW rate before
dividing by price. Result clamped at zero; any exception yields zero. -/
def calculateBuyQty (cfg : RiskConfig) (fetch : Option CashInfo) (now : ℚ)
    (s : RiskState) (price : ℚ) (market : Market) : RiskState × ℤ :=
  match getCashInfo fetch now s with
  | (s', none) => (s', 0)
  | (s', some ci) =>
      if price ≤ 0 then (s', 0)
      else
        let baseAmount := if 0 < cfg.totalBudget then cfg.totalBudget else ci.totalEval
        if baseAmount ≤ 0 then (s', 0)
        else
          let maxStocks := calcMaxStocks baseAmount
          let maxInvest := baseAmount / (maxStocks : ℚ)
          let maxByCash := ci.cash * (95 / 100)
          let investAmount := min maxInvest maxByCash
          let qty :=
            match market with
            | Market.US => pyInt (investAmount / cfg.usdKrwRate / price)
            | Market.KR => pyInt (investAmount / price)
          (s', max qty 0)

/-- `RiskManager.update_high_watermarks`: drop marks of symbols no longer
held, then raise each held symbol's mark to the current price when it exceeds
the stored high (absent marks default to 0). -/
def updateHighWatermarks (positions : List Position) (hwm : List (String × ℚ)) :
    List (String × ℚ) :=
  let activeSymbols := positions.map (fun p => p.symbol)
  let pruned := hwm.filter (fun p => activeSymbols.contains p.1)
  positions.foldl
    (fun m pos =>
      let prevHigh := (alistGet? m pos.symbol).getD 0
      if prevHigh < pos.currentPrice then alistSet m pos.symbol pos.currentPrice else m)
    pruned

/-- `RiskManager._get_thresholds`: the per-symbol dynamic (stop, take) pair
when recorded, else the configured static pair. -/
def getThresholds (cfg : RiskConfig) (dyn : List (String × (ℚ × ℚ)))
    (symbol : String) : ℚ × ℚ :=
  (alistGet? dyn symbol).getD (cfg.stopLossPct, cfg.takeProfitPct)

/-- One position's take-profit verdict inside `RiskManager.check_take_profit`:
hard take-profit ceiling first (short-circuits), then the trailing check when
the activation threshold is met and the high-water mark is positive. -/
def takeProfitFlagged (cfg : RiskConfig) (dyn : List (String × (ℚ × ℚ)))
    (hwm : List (String × ℚ)) (pos : Position) : Bool :=
  let profitPct := (getThresholds cfg dyn pos.symbol).2
  if profitPct ≤ pos.pnlPct then true
  else if cfg.trailingActivationPct ≤ pos.pnlPct then
    let high := (alistGet? hwm pos.symbol).getD pos.currentPrice
    if high ≤ 0 then false
    else decide (cfg.trailingStopPct ≤ (high - pos.currentPrice) / high * 100)
  else false

/-- `RiskManager.check_take_profit` over a position list. -/
def checkTakeProfit (cfg : RiskConfig) (dyn : List (String × (ℚ × ℚ)))
    (hwm : List (String × ℚ)) (positions : List Position) : List Position :=
  positions.filter (takeProfitFlagged cfg dyn hwm)

/-- `RiskManager.check_stop_loss` over a position list. -/
def checkStopLoss (cfg : RiskConfig) (dyn : List (String × (ℚ × ℚ)))
    (positions : List Position) : List Position :=
  positions.filter (fun pos => decide (pos.pnlPct ≤ -(getThresholds cfg dyn pos.symbol).1))

/-- Result of `RiskManager.check_positions`. -/
structure PositionCheck where
  hwm : List (String × ℚ)
  stopTargets : List Position
  profitTargets : List Position
deriving DecidableEq

/-- `RiskManager.check_positions`: update high-water marks first, then collect
stop-loss and take-profit targets. -/
def checkPositions (cfg : RiskConfig) (dyn : List (String × (ℚ × ℚ)))
    (hwm : List (String × ℚ)) (positions : List Position) : PositionCheck :=
  let hwm2 := updateHighWatermarks positions hwm
  { hwm := hwm2
    stopTargets := checkStopLoss cfg dyn positions
    profitTargets := checkTakeProfit cfg dyn hwm2 positions }

/-! ## Order execution engine (src/trading/executor.py) -/

/-- KRX tick-size table `_KR_TICK_TABLE`: upper price bound of each tier
(`none` stands for the final `float("inf")` entry) paired with its tick. -/
def KR_TICK_TABLE : List (Option ℤ × ℤ) :=
  [(some 2000, 1), (some 5000, 5), (some 20000, 10), (some 50000, 50),
   (some 200000, 100), (some 500000, 500), (none, 1000)]

/-- The loop body of `TradingExecutor._round_kr_tick`: first tier whose bound
exceeds the price determines the tick; the price is floored to that tick. -/
def roundKrTickAux (price : ℤ) : List (Option ℤ × ℤ) → ℤ
  | [] => price
  | (some bound, tick) :: rest =>
      if price < bound then price - price % tick else roundKrTickAux price rest
  | (none, tick) :: _ => price - price % tick

/-- `TradingExecutor._round_kr_tick`: round a KR price down to the KRX
tick-size table. -/
def round_kr_tick (price : ℤ) : ℤ :=
  roundKrTickAux price KR_TICK_TABLE

/-- Tick size of the tier containing a given price, reading the tiers of
`_KR_TICK_TABLE` as the spec's tick-size table. -/
def krTick (price : ℤ) : ℤ :=
  if price < 2000 then 1
  else if price < 5000 then 5
  else if price < 20000 then 10
  else if price < 50000 then 50
  else if price < 200000 then 100
  else if price < 500000 then 500
  else 1000

/-- TradingExecutor limit/split-order settings (attributes set in main.py). -/
structure ExecConfig where
  limitOrderEnabled : Bool := true
  limitBuyOffsetPct : ℚ := 3 / 10
  limitTpOffsetPct : ℚ := 3 / 10
  limitOrderTimeoutSec : ℚ := 300
  splitBuyEnabled : Bool := true
  splitBuyFirstRatio : ℚ := 1 / 2
  splitBuyDipPct : ℚ := 2
  splitSellEnabled : Bool := true
  splitSellFirstRatio : ℚ := 1 / 2
  isLive : Bool := true
deriving DecidableEq

/-- One `_position_stages` record. `partialSold` models the `partial_sold`
key, absent (`false`) until the first partial take-profit exit. -/
structure StageInfo where
  stage : ℕ
  firstBuyPrice : ℚ
  firstBuyQty : ℤ
  market : Market
  partialSold : Bool := false
deriving DecidableEq

/-- One `_pending_orders` record. -/
structure PendingInfo where
  orderNo : String
  symbol : String
  market : Market
  side : String
  qty : ℤ
  price : ℤ
  placedAt : ℚ
deriving DecidableEq

/-- Mutable TradingExecutor state (pending orders, position stages, balance
cache) together with the embedded RiskManager state. -/
structure ExecState where
  pendingOrders : List (String × PendingInfo) := []
  positionStages : List (String × StageInfo) := []
  balanceCache : List (Market × List Position) := []
  balanceCacheTime : Option ℚ := none
  risk : RiskState := {}
deriving DecidableEq

/-- `TradingExecutor._get_cached_positions`: 30-second TTL balance cache per
market; an exception from the balance fetch returns the empty list without
caching. -/
def getCachedPositions (market : Market) (balFetch : Option (List Position))
    (now : ℚ) (es : ExecState) : ExecState × List Position :=
  let es1 :=
    match es.balanceCacheTime with
    | some t =>
        if now - t < 30 then es
        else { es with balanceCache := [], balanceCacheTime := some now }
    | none => { es with balanceCache := [], balanceCacheTime := some now }
  match alistGet? es1.balanceCache market with
  | some ps => (es1, ps)
  | none =>
      match balFetch with
      | some ps => ({ es1 with balanceCache := alistSet es1.balanceCache market ps }, ps)
      | none => (es1, [])

/-- `TradingExecutor._is_holding`: the cached snapshot holds the symbol with
positive quantity. -/
def isHolding (symbol : String) (market : Market) (balFetch : Option (List Position))
    (now : ℚ) (es : ExecState) : ExecState × Bool :=
  let r := getCachedPositions market balFetch now es
  (r.1, r.2.any (fun p => p.symbol == symbol && decide (0 < p.qty)))

/-- Oracle inputs of one `execute_signal` call: the balance fetch, today's
trade count, the cash-balance fetch, the price fetch for the traded symbol,
and the broker's reply to an order placement (`none` = the call raised). -/
structure SignalEnv where
  balFetch : Option (List Position) := none
  tradeCount : ℕ := 0
  cashFetch : Option CashInfo := none
  priceFetch : Option ℚ := none
  orderOutcome : Option OrderResult := none

/-- `TradingExecutor._execute_buy`: fetch the price, size the order via
`calculateBuyQty` (abort on zero), take the split-buy first leg when enabled,
place a tick-rounded limit buy (KR with limit orders enabled) or a market buy,
register the pending record on a successful limit order and the stage-1
record on any successful buy with split-buy enabled. -/
def executeBuy (symbol : String) (market : Market) (cfg : ExecConfig)
    (cfgR : RiskConfig) (env : SignalEnv) (now : ℚ) (es : ExecState) :
    ExecState × Option OrderResult × List BrokerOp :=
  match env.priceFetch with
  | none => (es, none, [])
  | some price =>
      let rq := calculateBuyQty cfgR env.cashFetch now es.risk price market
      let es1 := { es with risk := rq.1 }
      let qty := rq.2
      if qty ≤ 0 then (es1, none, [])
      else
        let buyQty :=
          if cfg.splitBuyEnabled then max 1 (pyInt ((qty : ℚ) * cfg.splitBuyFirstRatio))
          else qty
        let stage1 : StageInfo :=
          { stage := 1, firstBuyPrice := price, firstBuyQty := buyQty, market := market }
        match market with
        | Market.KR =>
            if cfg.limitOrderEnabled then
              let offset := if !cfg.isLive then 0 else cfg.limitBuyOffsetPct
              let limitPrice := round_kr_tick (pyInt (price * (1 - offset / 100)))
              let op := BrokerOp.buyKR symbol buyQty limitPrice
              match env.orderOutcome with
              | none => (es1, none, [op])
              | some order =>
                  let pend : PendingInfo :=
                    { orderNo := order.orderNo, symbol := symbol, market := market,
                      side := "buy", qty := buyQty, price := limitPrice, placedAt := now }
                  let es2 :=
                    if order.success then
                      { es1 with pendingOrders := alistSet es1.pendingOrders symbol pend }
                    else es1
                  let es3 :=
                    if order.success && cfg.splitBuyEnabled then
                      { es2 with positionStages := alistSet es2.positionStages symbol stage1 }
                    else es2
                  (es3, some order, [op])
            else
              let op := BrokerOp.buyKR symbol buyQty 0
              match env.orderOutcome with
              | none => (es1, none, [op])
              | some order =>
                  let es2 :=
                    if order.success && cfg.splitBuyEnabled then
                      { es1 with positionStages := alistSet es1.positionStages symbol stage1 }
                    else es1
                  (es2, some order, [op])
        | Market.US =>
            let op := BrokerOp.buyUS symbol buyQty 0
            match env.orderOutcome with
            | none => (es1, none, [op])
            | some order =>
                let es2 :=
                  if order.success && cfg.splitBuyEnabled then
                    { es1 with positionStages := alistSet es1.positionStages symbol stage1 }
                  else es1
                (es2, some order, [op])

/-- `TradingExecutor._execute_sell`: market-sell the full held quantity read
from the cached snapshot; abort when not held or held with zero quantity. -/
def executeSell (symbol : String) (market : Market) (env : SignalEnv)
    (now : ℚ) (es : ExecState) : ExecState × Option OrderResult × List BrokerOp :=
  let r := getCachedPositions market env.balFetch now es
  let es1 := r.1
  match r.2.find? (fun p => p.symbol == symbol) with
  | none => (es1, none, [])
  | some held =>
      if held.qty ≤ 0 then (es1, none, [])
      else
        let op :=
          match market with
          | Market.KR => BrokerOp.sellKR symbol held.qty 0
          | Market.US => BrokerOp.sellUS symbol held.qty 0
        match env.orderOutcome with
        | none => (es1, none, [op])
        | some order => (es1, some order, [op])

/-- `TradingExecutor.execute_signal`: ignore HOLD; drop SELL when not held and
BUY when held (30 s cached snapshot); then consult `canTrade` and, on denial,
surface the reason (fourth component: the reason handed to the error
notifier) without any broker order; otherwise dispatch to buy or sell. -/
def executeSignal (symbol : String) (market : Market) (signal : Signal)
    (cfg : ExecConfig) (cfgR : RiskConfig) (env : SignalEnv) (now : ℚ)
    (es : ExecState) :
    ExecState × Option OrderResult × List BrokerOp × Option DenyReason :=
  if signal == Signal.HOLD then (es, none, [], none)
  else
    let rh := isHolding symbol market env.balFetch now es
    let es1 := rh.1
    let isHeld := rh.2
    if signal == Signal.SELL && !isHeld then (es1, none, [], none)
    else if signal == Signal.BUY && isHeld then (es1, none, [], none)
    else
      let rc := canTrade cfgR env.tradeCount env.cashFetch now es1.risk
      let es2 := { es1 with risk := rc.1 }
      match rc.2 with
      | some r => (es2, none, [], some r)
      | none =>
          match signal with
          | Signal.BUY =>
              let rb := executeBuy symbol market cfg cfgR env now es2
              (rb.1, rb.2.1, rb.2.2, none)
          | Signal.SELL =>
              let rs := executeSell symbol market env now es2
              (rs.1, rs.2.1, rs.2.2, none)
          | Signal.HOLD => (es2, none, [], none)

/-- `TradingExecutor.execute_stop_loss`: always a full-quantity market sell;
on success record the stop-loss with the risk manager and delete the symbol's
stage record; a failed or raising sell leaves both untouched. -/
def executeStopLoss (symbol : String) (market : Market) (qty : ℤ)
    (cfgR : RiskConfig) (orderOutcome : Option OrderResult) (now : ℚ)
    (es : ExecState) : ExecState × Option OrderResult × List BrokerOp :=
  let op :=
    match market with
    | Market.KR => BrokerOp.sellKR symbol qty 0
    | Market.US => BrokerOp.sellUS symbol qty 0
  match orderOutcome with
  | none => (es, none, [op])
  | some order =>
      if order.success then
        ({ es with risk := recordStopLoss cfgR now es.risk,
                   positionStages := alistErase es.positionStages symbol },
         some order, [op])
      else (es, some order, [op])

/-- Order-placement tail of `TradingExecutor.execute_take_profit`: a
tick-rounded limit sell for KR with limit orders enabled (registering a
pending record keyed `symbol_tp` on success), else a market sell; on success
record the profit with the risk manager. -/
def takeProfitOrder (symbol : String) (market : Market) (sellQty : ℤ)
    (cfg : ExecConfig) (priceFetch : Option ℚ) (orderOutcome : Option OrderResult)
    (now : ℚ) (es : ExecState) : ExecState × Option OrderResult × List BrokerOp :=
  if market == Market.KR && cfg.limitOrderEnabled then
    match priceFetch with
    | none => (es, none, [])
    | some price =>
        let tpOffset := if !cfg.isLive then 0 else cfg.limitTpOffsetPct
        let limitPrice := round_kr_tick (pyInt (price * (1 + tpOffset / 100)))
        let op := BrokerOp.sellKR symbol sellQty limitPrice
        match orderOutcome with
        | none => (es, none, [op])
        | some order =>
            let pend : PendingInfo :=
              { orderNo := order.orderNo, symbol := symbol, market := market,
                side := "sell", qty := sellQty, price := limitPrice, placedAt := now }
            let es1 :=
              if order.success then
                { es with pendingOrders := alistSet es.pendingOrders (symbol ++ "_tp") pend }
              else es
            let es2 :=
              if order.success then { es1 with risk := recordProfit es1.risk } else es1
            (es2, some order, [op])
  else
    let op :=
      match market with
      | Market.KR => BrokerOp.sellKR symbol sellQty 0
      | Market.US => BrokerOp.sellUS symbol sellQty 0
    match orderOutcome with
    | none => (es, none, [op])
    | some order =>
        let es1 :=
          if order.success then { es with risk := recordProfit es.risk } else es
        (es1, some order, [op])

/-- `TradingExecutor.execute_take_profit`: when split-sell is enabled and the
stage record exists without a prior partial exit, sell
`max 1 (int (qty * splitSellFirstRatio))` and mark `partial_sold` on the
stage record; otherwise sell the full quantity and pop the stage record.
Both stage-map mutations happen before the order is placed. -/
def executeTakeProfit (symbol : String) (market : Market) (qty : ℤ)
    (cfg : ExecConfig) (priceFetch : Option ℚ) (orderOutcome : Option OrderResult)
    (now : ℚ) (es : ExecState) : ExecState × Option OrderResult × List BrokerOp :=
  match alistGet? es.positionStages symbol with
  | some si =>
      if cfg.splitSellEnabled && !si.partialSold then
        let sellQty := max 1 (pyInt ((qty : ℚ) * cfg.splitSellFirstRatio))
        let si2 := { si with partialSold := true }
        let es1 := { es with positionStages := alistSet es.positionStages symbol si2 }
        takeProfitOrder symbol market sellQty cfg priceFetch orderOutcome now es1
      else
        let es1 := { es with positionStages := alistErase es.positionStages symbol }
        takeProfitOrder symbol market qty cfg priceFetch orderOutcome now es1
  | none =>
      let es1 := { es with positionStages := alistErase es.positionStages symbol }
      takeProfitOrder symbol market qty cfg priceFetch orderOutcome now es1

/-- `TradingExecutor.check_split_buy_opportunity`: no-op without a stage-1
record; when the current price is at or below the dip threshold, buy
`max 1 (int (fullQty * (1 - splitBuyFirstRatio)))` shares, where `fullQty`
is freshly recomputed via `calculateBuyQty`, and advance the stage to 2 on a
successful buy. -/
def checkSplitBuyOpportunity (symbol : String) (market : Market)
    (cfg : ExecConfig) (cfgR : RiskConfig) (priceFetch : Option ℚ)
    (cashFetch : Option CashInfo) (orderOutcome : Option OrderResult)
    (now : ℚ) (es : ExecState) : ExecState × Option OrderResult × List BrokerOp :=
  match alistGet? es.positionStages symbol with
  | none => (es, none, [])
  | some si =>
      if 2 ≤ si.stage then (es, none, [])
      else
        match priceFetch with
        | none => (es, none, [])
        | some currentPrice =>
            let dipThreshold := si.firstBuyPrice * (1 - cfg.splitBuyDipPct / 100)
            if dipThreshold < currentPrice then (es, none, [])
            else
              let remainingRatio := 1 - cfg.splitBuyFirstRatio
              let rq := calculateBuyQty cfgR cashFetch now es.risk currentPrice market
              let es1 := { es with risk := rq.1 }
              let addQty := max 1 (pyInt ((rq.2 : ℚ) * remainingRatio))
              let op :=
                match market with
                | Market.KR =>
                    if cfg.limitOrderEnabled then
                      let offset := if !cfg.isLive then 0 else cfg.limitBuyOffsetPct
                      BrokerOp.buyKR symbol addQty
                        (round_kr_tick (pyInt (currentPrice * (1 - offset / 100))))
                    else BrokerOp.buyKR symbol addQty 0
                | Market.US => BrokerOp.buyUS symbol addQty 0
              match orderOutcome with
              | none => (es1, none, [op])
              | some order =>
                  if order.success then
                    ({ es1 with positionStages :=
                        alistSet es1.positionStages symbol { si with stage := 2 } },
                     some order, [op])
                  else (es1, some order, [op])

/-- Loop body of `TradingExecutor.check_pending_orders` over a snapshot of the
pending map: an entry whose age reaches the timeout gets a broker cancel (KR
market) and is deleted regardless of the cancel outcome — `cancelOutcome`
(`none` = the cancel raised) only affects logging in the source and is not
branched on here. -/
def sweepPending (cfg : ExecConfig) (cancelOutcome : String → Option OrderResult)
    (now : ℚ) : List (String × PendingInfo) → ExecState → ExecState × List BrokerOp
  | [], s => (s, [])
  | (k, info) :: rest, s =>
      if cfg.limitOrderTimeoutSec ≤ now - info.placedAt then
        let ops1 :=
          if info.market == Market.KR then
            [BrokerOp.cancelKR info.orderNo info.symbol info.qty]
          else []
        let s1 := { s with pendingOrders := alistErase s.pendingOrders k }
        let r := sweepPending cfg cancelOutcome now rest s1
        (r.1, ops1 ++ r.2)
      else sweepPending cfg cancelOutcome now rest s

/-- `TradingExecutor.check_pending_orders`: sweep all pending limit orders,
canceling and removing every timed-out record. -/
def checkPendingOrders (cfg : ExecConfig) (cancelOutcome : String → Option OrderResult)
    (now : ℚ) (es : ExecState) : ExecState × List BrokerOp :=
  sweepPending cfg cancelOutcome now es.pendingOrders es

/-- Per-symbol allocation as the specification words it: base amount divided
by the step-table slot count, capped at 95% of available cash. -/
def specAllocation (base cash : ℚ) : ℚ :=
  min (base / (calcMaxStocks base : ℚ)) (cash * (95 / 100))

/-! ## Concrete scenario values used by claim instances -/

/-- Configuration of the spec's daily-loss example: total budget 10,000,000
with a 3% daily maximum loss. -/
def cfgBudget : RiskConfig := { totalBudget := 10000000, dailyMaxLossPct := 3 }

/-- Cash snapshot with realized P&L −300,001. -/
def cashLoss : CashInfo := { totalEval := 0, cash := 0, totalPnl := -300001 }

/-- Cash snapshot with realized P&L −299,999. -/
def cashOk : CashInfo := { totalEval := 0, cash := 0, totalPnl := -299999 }

/-- Cash snapshot with 20,000,000 available cash. -/
def cashRich : CashInfo := { totalEval := 0, cash := 20000000, totalPnl := 0 }

/-- Position entered at 100 after rising to 110: +10% unrealized. -/
def pos110 : Position :=
  { symbol := "A", pname := "", qty := 10, avgPrice := 100, currentPrice := 110,
    pnl := 100, pnlPct := 10, market := Market.KR }

/-- The same position after falling back to 107.8: +7.8% unrealized. -/
def pos1078 : Position :=
  { symbol := "A", pname := "", qty := 10, avgPrice := 100, currentPrice := 1078 / 10,
    pnl := 78, pnlPct := 78 / 10, market := Market.KR }

/-- A pending limit order placed at time 0. -/
def pendA : PendingInfo :=
  { orderNo := "1", symbol := "A", market := Market.KR, side := "buy", qty := 3,
    price := 20000, placedAt := 0 }

/-- A stage-1 split-buy record for symbol A entered at 100. -/
def stageA : StageInfo :=
  { stage := 1, firstBuyPrice := 100, firstBuyQty := 5, market := Market.KR }

/-- A failed broker order reply. -/
def failedOrder : OrderResult := { success := false }

/-- A clean risk state carrying a fresh allowed daily-loss cache entry
recorded at time 3599. -/
def cacheOkState : RiskState :=
  { dailyLossCacheTime := some 3599, dailyLossCacheOk := true }

/-- A halted risk state: three consecutive losses, the last at time 0, with a
fresh allowed daily-loss cache entry recorded at time 3590. -/
def haltedState : RiskState :=
  { consecutiveLosses := 3, lastLossTime := some 0, tradingHalted := true,
    haltCause := some HaltCause.consecutiveLosses,
    dailyLossCacheTime := some 3590, dailyLossCacheOk := true }

/-! ## Helper lemmas -/

/-- The step table always yields a positive slot count. -/
theorem calcMaxStocks_pos (budget : ℚ) : 0 < calcMaxStocks budget := by
  unfold calcMaxStocks
  split_ifs <;> norm_num

/-- Python truncation agrees with the floor on nonnegative rationals. -/
theorem pyInt_eq_floor {q : ℚ} (h : 0 ≤ q) : pyInt q = ⌊q⌋ := by
  unfold pyInt
  rw [if_pos h]

/-- `calculate_buy_qty` never returns a negative quantity. -/
theorem calculateBuyQty_nonneg (cfg : RiskConfig) (fetch : Option CashInfo)
    (now : ℚ) (s : RiskState) (price : ℚ) (market : Market) :
    0 ≤ (calculateBuyQty cfg fetch now s price market).2 := by
  unfold calculateBuyQty
  rcases h : getCashInfo fetch now s with ⟨s', ci?⟩
  rcases ci? with _ | ci
  · simp
  · simp only
    split_ifs <;> simp [le_max_right]

/-- Daily-loss check, fresh evaluation on a successful cash fetch: denies and
trips the halt exactly when realized P&L is at or below the loss cap. -/
theorem checkDailyLoss_eval (cfg : RiskConfig) (ci : CashInfo) (now : ℚ)
    (s : RiskState) (hB : 0 < cfg.totalBudget)
    (hFresh : dailyLossCacheFresh now s = false) (hCC : s.cashCache = none) :
    checkDailyLossCached cfg (some ci) now s =
      if ci.totalPnl ≤ -(cfg.totalBudget * (cfg.dailyMaxLossPct / 100)) then
        ({ s with tradingHalted := true, haltCause := some HaltCause.dailyLoss,
                  cashCache := some ci, cashCacheTime := some now,
                  dailyLossCacheTime := some now, dailyLossCacheOk := false }, false)
      else
        ({ s with cashCache := some ci, cashCacheTime := some now,
                  dailyLossCacheTime := some now, dailyLossCacheOk := true }, true) := by
  obtain ⟨dyn, hwm, cl, llt, th, hc, dlct, dlok, cc, cct⟩ := s
  simp only [RiskState.cashCache] at hCC
  subst hCC
  unfold checkDailyLossCached getCashInfo
  rw [hFresh]
  simp only [Bool.false_eq_true, if_false, if_pos hB]
  split_ifs <;> rfl

/-- Daily-loss check with a fresh cache: the cached verdict is returned and
the state is untouched. -/
theorem checkDailyLoss_fresh (cfg : RiskConfig) (fetch : Option CashInfo)
    (now : ℚ) (s : RiskState) (hFresh : dailyLossCacheFresh now s = true) :
    checkDailyLossCached cfg fetch now s = (s, s.dailyLossCacheOk) := by
  unfold checkDailyLossCached
  rw [hFresh]
  simp

/-- Daily-loss check without a positive configured budget: the verdict is
allowed and the halt state is untouched. -/
theorem checkDailyLoss_noBudget (cfg : RiskConfig) (fetch : Option CashInfo)
    (now : ℚ) (s : RiskState) (hB : ¬ 0 < cfg.totalBudget)
    (hFresh : dailyLossCacheFresh now s = false) :
    checkDailyLossCached cfg fetch now s =
      ({ s with dailyLossCacheTime := some now, dailyLossCacheOk := true }, true) := by
  unfold checkDailyLossCached
  rw [hFresh]
  simp only [Bool.false_eq_true, if_false, if_neg hB]

/-- Daily-loss check when the cash fetch raises: the exception is caught, the
verdict stays allowed, and the allowed verdict is cached. -/
theorem checkDailyLoss_fetchRaises (cfg : RiskConfig) (now : ℚ) (s : RiskState)
    (hB : 0 < cfg.totalBudget) (hFresh : dailyLossCacheFresh now s = false)
    (hCC : s.cashCache = none) :
    checkDailyLossCached cfg none now s =
      ({ s with dailyLossCacheTime := some now, dailyLossCacheOk := true }, true) := by
  obtain ⟨dyn, hwm, cl, llt, th, hc, dlct, dlok, cc, cct⟩ := s
  simp only [RiskState.cashCache] at hCC
  subst hCC
  unfold checkDailyLossCached getCashInfo
  rw [hFresh]
  simp only [Bool.false_eq_true, if_false, if_pos hB]

/-- Lookup of a key just inserted at the head. -/
theorem alistGet?_cons_eq {A : Type} (k : String) (v : A) (rest : List (String × A)) :
    alistGet? ((k, v) :: rest) k = some v := by
  unfold alistGet?
  rw [List.find?_cons_of_pos _ (by simp)]

/-- Lookup skips a head entry with a different key. -/
theorem alistGet?_cons_ne {A : Type} (k0 k : String) (v0 : A)
    (rest : List (String × A)) (h : k0 ≠ k) :
    alistGet? ((k0, v0) :: rest) k = alistGet? rest k := by
  unfold alistGet?
  rw [List.find?_cons_of_neg _ (by simp [h])]

/-- Erasing the head key drops the head entry. -/
theorem alistErase_cons_eq {A : Type} (k : String) (v : A) (rest : List (String × A)) :
    alistErase ((k, v) :: rest) k = alistErase rest k := by
  simp [alistErase, List.filter]

/-- Erasing another key keeps the head entry. -/
theorem alistErase_cons_ne {A : Type} (k0 k : String) (v0 : A)
    (rest : List (String × A)) (h : k0 ≠ k) :
    alistErase ((k0, v0) :: rest) k = (k0, v0) :: alistErase rest k := by
  simp [alistErase, List.filter, beq_eq_false_iff_ne.mpr h]

/-- Erasing a key removes every binding of that key. -/
theorem alistGet?_erase_self {A : Type} (m : List (String × A)) (k : String) :
    alistGet? (alistErase m k) k = none := by
  unfold alistGet? alistErase
  have hnone : (m.filter fun p => !(p.1 == k)).find? (fun p => p.1 == k) = none := by
    rw [List.find?_eq_none]
    intro p hp
    have := (List.mem_filter.1 hp).2
    simp at this
    simp [this]
  rw [hnone]

/-- A missing key stays missing after an erase. -/
theorem alistGet?_erase_none {A : Type} (m : List (String × A)) (k k2 : String)
    (h : alistGet? m k = none) : alistGet? (alistErase m k2) k = none := by
  induction m with
  | nil => exact h
  | cons p rest ih =>
      rcases p with ⟨k0, v0⟩
      by_cases hk : k0 = k
      · subst hk
        rw [alistGet?_cons_eq] at h
        simp at h
      · rw [alistGet?_cons_ne k0 k v0 rest hk] at h
        by_cases hk2 : k0 = k2
        · subst hk2
          rw [alistErase_cons_eq]
          exact ih h
        · rw [alistErase_cons_ne k0 k2 v0 rest hk2, alistGet?_cons_ne k0 k v0 _ hk]
          exact ih h

/-- Erasing a different key does not change a lookup. -/
theorem alistGet?_erase_ne {A : Type} (m : List (String × A)) (k k2 : String)
    (hne : k2 ≠ k) : alistGet? (alistErase m k2) k = alistGet? m k := by
  induction m with
  | nil => rfl
  | cons p rest ih =>
      rcases p with ⟨k0, v0⟩
      by_cases hk2 : k0 = k2
      · subst hk2
        rw [alistErase_cons_eq, alistGet?_cons_ne k0 k v0 rest hne]
        exact ih
      · rw [alistErase_cons_ne k0 k2 v0 rest hk2]
        by_cases hk : k0 = k
        · subst hk
          rw [alistGet?_cons_eq, alistGet?_cons_eq]
        · rw [alistGet?_cons_ne k0 k v0 _ hk, alistGet?_cons_ne k0 k v0 rest hk]
          exact ih

/-- With distinct keys, membership determines the lookup result. -/
theorem alistGet?_of_nodup {A : Type} (m : List (String × A)) (k : String) (v : A)
    (hnd : (m.map Prod.fst).Nodup) (hmem : (k, v) ∈ m) : alistGet? m k = some v := by
  induction m with
  | nil => simp at hmem
  | cons p rest ih =>
      rcases p with ⟨k0, v0⟩
      rcases List.mem_cons.1 hmem with heq | hrest
      · rw [Prod.mk.injEq] at heq
        obtain ⟨h1, h2⟩ := heq
        subst h1
        subst h2
        exact alistGet?_cons_eq k v rest
      · have hk0 : k0 ≠ k := by
          intro h
          subst h
          exact (List.nodup_cons.1 hnd).1 (List.mem_map.2 ⟨(k0, v), hrest, rfl⟩)
        rw [alistGet?_cons_ne k0 k v0 rest hk0]
        exact ih (List.nodup_cons.1 hnd).2 hrest

/-- `_get_cash_info` with an empty cash cache and a successful fetch caches
and returns the fetched snapshot. -/
theorem getCashInfo_fetch (ci : CashInfo) (now : ℚ) (s : RiskState)
    (hCC : s.cashCache = none) :
    getCashInfo (some ci) now s =
      ({ s with cashCache := some ci, cashCacheTime := some now }, some ci) := by
  obtain ⟨dyn, hwm, cl, llt, th, hc, dlct, dlok, cc, cct⟩ := s
  simp only [RiskState.cashCache] at hCC
  subst hCC
  cases cct <;> rfl

/-- `_get_cash_info` with an empty cash cache and a raising fetch leaves the
state untouched and propagates the exception. -/
theorem getCashInfo_raises (now : ℚ) (s : RiskState) (hCC : s.cashCache = none) :
    getCashInfo none now s = (s, none) := by
  obtain ⟨dyn, hwm, cl, llt, th, hc, dlct, dlok, cc, cct⟩ := s
  simp only [RiskState.cashCache] at hCC
  subst hCC
  cases cct <;> rfl

/-- The daily-loss freshness test only depends on the cache timestamp. -/
theorem dailyLossCacheFresh_eq (now : ℚ) (s s2 : RiskState)
    (h : s.dailyLossCacheTime = s2.dailyLossCacheTime) :
    dailyLossCacheFresh now s = dailyLossCacheFresh now s2 := by
  unfold dailyLossCacheFresh
  rw [h]

/-- `record_stop_loss` leaves the daily-loss cache fields untouched. -/
theorem recordStopLoss_dailyCache (cfg : RiskConfig) (now : ℚ) (s : RiskState) :
    (recordStopLoss cfg now s).dailyLossCacheTime = s.dailyLossCacheTime ∧
    (recordStopLoss cfg now s).dailyLossCacheOk = s.dailyLossCacheOk := by
  by_cases h : cfg.consecutiveLossLimit ≤ s.consecutiveLosses + 1 <;>
    simp [recordStopLoss, h]

/-- One-position take-profit verdict, spelled out: with a positive high-water
value, a position is flagged exactly when the hard take-profit threshold is
met or trailing is active and the drop from the high reaches the trailing
stop. -/
theorem takeProfitFlagged_iff (cfg : RiskConfig) (dyn : List (String × (ℚ × ℚ)))
    (hwm2 : List (String × ℚ)) (pos : Position)
    (hHigh : 0 < (alistGet? hwm2 pos.symbol).getD pos.currentPrice) :
    (takeProfitFlagged cfg dyn hwm2 pos = true ↔
      ((getThresholds cfg dyn pos.symbol).2 ≤ pos.pnlPct ∨
       (cfg.trailingActivationPct ≤ pos.pnlPct ∧
        cfg.trailingStopPct ≤
          (((alistGet? hwm2 pos.symbol).getD pos.currentPrice) - pos.currentPrice) /
            ((alistGet? hwm2 pos.symbol).getD pos.currentPrice) * 100))) := by
  unfold takeProfitFlagged
  by_cases h1 : (getThresholds cfg dyn pos.symbol).2 ≤ pos.pnlPct
  · simp [h1]
  · by_cases h2 : cfg.trailingActivationPct ≤ pos.pnlPct
    · rw [if_neg h1, if_pos h2, if_neg (not_le.mpr hHigh)]
      simp [h1, h2]
    · simp [h1, h2]

/-- `can_trade` when not halted and under the trade cap reduces to the
daily-loss gate. -/
theorem canTrade_notHalted (cfg : RiskConfig) (tc : ℕ) (fetch : Option CashInfo)
    (now : ℚ) (s : RiskState) (hTC : tc < cfg.maxDailyTrades)
    (hH : s.tradingHalted = false) :
    canTrade cfg tc fetch now s =
      ((checkDailyLossCached cfg fetch now s).1,
       if (checkDailyLossCached cfg fetch now s).2 then none
       else some DenyReason.dailyLoss) := by
  unfold canTrade
  rw [if_neg (by omega), hH]
  simp only [Bool.false_eq_true, if_false]
  rcases h : checkDailyLossCached cfg fetch now s with ⟨s2, ok⟩
  cases ok <;> simp

/-- `can_trade` while halted with a recorded loss and the cooldown not yet
elapsed denies with the remaining minutes. -/
theorem canTrade_inCooldown (cfg : RiskConfig) (tc : ℕ) (fetch : Option CashInfo)
    (now t : ℚ) (s : RiskState) (hTC : tc < cfg.maxDailyTrades)
    (hH : s.tradingHalted = true) (hL : s.lastLossTime = some t)
    (hCool : (now - t) / 60 < cfg.consecutiveLossCooldown) :
    canTrade cfg tc fetch now s =
      (s, some (DenyReason.cooldown (cfg.consecutiveLossCooldown - (now - t) / 60))) := by
  unfold canTrade
  rw [if_neg (by omega), hH, hL]
  simp only [if_true]
  rw [if_neg (by exact not_le.mpr hCool)]

/-- `can_trade` while halted with a recorded loss whose cooldown has elapsed:
the halt is cleared, the counter reset, and evaluation continues with the
daily-loss gate on the cleared state. -/
theorem canTrade_cooldownElapsed (cfg : RiskConfig) (tc : ℕ) (fetch : Option CashInfo)
    (now t : ℚ) (s : RiskState) (hTC : tc < cfg.maxDailyTrades)
    (hH : s.tradingHalted = true) (hL : s.lastLossTime = some t)
    (hCool : cfg.consecutiveLossCooldown ≤ (now - t) / 60) :
    canTrade cfg tc fetch now s =
      ((checkDailyLossCached cfg fetch now
          { s with tradingHalted := false, consecutiveLosses := 0, haltCause := none }).1,
       if (checkDailyLossCached cfg fetch now
            { s with tradingHalted := false, consecutiveLosses := 0,
                     haltCause := none }).2 then none
       else some DenyReason.dailyLoss) := by
  unfold canTrade
  rw [if_neg (by omega), hH, hL]
  simp only [if_true, if_pos hCool]
  rcases h : checkDailyLossCached cfg fetch now
    { s with lastLossTime := some t, tradingHalted := false, consecutiveLosses := 0,
             haltCause := none } with ⟨s2, ok⟩
  cases ok <;> simp [h]

/-! ## Claim theorems -/

/-- C1 counterexample: the claim asserts that a computed domestic limit price
of 20,037 lies in a 20,000–50,000 tier with tick 10 and rounds down to
20,030. On the code's tick table the 20,000–50,000 tier carries tick 50, so
`_round_kr_tick` maps 20,037 to 20,000, not 20,030. -/
theorem C1_counterexample :
    round_kr_tick 20037 = 20000 ∧ round_kr_tick 20037 ≠ 20030 := by
  decide

/-- Subtracting a remainder leaves a multiple of the modulus. -/
theorem dvd_sub_emod (p t : ℤ) : t ∣ p - p % t := by
  refine ⟨p / t, ?_⟩
  rw [Int.emod_def]
  ring

/-- C1 (amended): for every integer price, `_round_kr_tick` rounds down to
the tick of the price's tier in the tick-size table — the result is
`p − p % tick`, a multiple of the tick, at most `p`, and less than one tick
below `p`; every KR limit order the executor places (entry buy, take-profit
sell, split-buy second leg) carries a price of exactly the form
`_round_kr_tick (int (price × (1 ∓ offset/100)))`; and 20,037 lies in the
20,000–50,000 tier whose tick is 50 and rounds down to 20,000. -/
theorem C1_tick_rounding :
    (∀ p : ℤ,
      round_kr_tick p = p - p % krTick p ∧
      krTick p ∣ round_kr_tick p ∧
      round_kr_tick p ≤ p ∧
      p - round_kr_tick p < krTick p) ∧
    ((20000 : ℤ) ≤ 20037 ∧ (20037 : ℤ) < 50000 ∧ krTick 20037 = 50 ∧
      round_kr_tick 20037 = 20000) ∧
    (∀ (symbol : String) (cfg : ExecConfig) (cfgR : RiskConfig) (env : SignalEnv)
       (now : ℚ) (es : ExecState) (price : ℚ),
      env.priceFetch = some price →
      cfg.limitOrderEnabled = true →
      0 < (calculateBuyQty cfgR env.cashFetch now es.risk price Market.KR).2 →
      (executeBuy symbol Market.KR cfg cfgR env now es).2.2.map BrokerOp.opPrice =
        [round_kr_tick (pyInt (price *
          (1 - (if !cfg.isLive then 0 else cfg.limitBuyOffsetPct) / 100)))]) ∧
    (∀ (symbol : String) (qty : ℤ) (cfg : ExecConfig) (price : ℚ)
       (outcome : Option OrderResult) (now : ℚ) (es : ExecState),
      cfg.limitOrderEnabled = true →
      (executeTakeProfit symbol Market.KR qty cfg (some price) outcome now
          es).2.2.map BrokerOp.opPrice =
        [round_kr_tick (pyInt (price *
          (1 + (if !cfg.isLive then 0 else cfg.limitTpOffsetPct) / 100)))]) ∧
    (∀ (symbol : String) (cfg : ExecConfig) (cfgR : RiskConfig) (price : ℚ)
       (cashFetch : Option CashInfo) (outcome : Option OrderResult) (now : ℚ)
       (es : ExecState) (si : StageInfo),
      alistGet? es.positionStages symbol = some si →
      si.stage < 2 →
      price ≤ si.firstBuyPrice * (1 - cfg.splitBuyDipPct / 100) →
      cfg.limitOrderEnabled = true →
      (checkSplitBuyOpportunity symbol Market.KR cfg cfgR (some price) cashFetch
          outcome now es).2.2.map BrokerOp.opPrice =
        [round_kr_tick (pyInt (price *
          (1 - (if !cfg.isLive then 0 else cfg.limitBuyOffsetPct) / 100)))]) := by
  refine ⟨?_, ⟨by decide, by decide, by decide, by decide⟩, ?_, ?_, ?_⟩
  · intro p
    unfold krTick
    simp only [round_kr_tick, KR_TICK_TABLE, roundKrTickAux]
    split_ifs <;> exact ⟨rfl, dvd_sub_emod p _, by omega, by omega⟩
  · intro symbol cfg cfgR env now es price hPrice hLim hQty
    simp only [executeBuy, hPrice]
    rw [if_neg (not_le.mpr hQty)]
    simp only [hLim, if_true]
    rcases hOut : env.orderOutcome with _ | order
    · simp [hOut, BrokerOp.opPrice]
    · by_cases hS : order.success = true <;> simp [hOut, hS, BrokerOp.opPrice]
  · intro symbol qty cfg price outcome now es hLim
    have hTP : ∀ (sq : ℤ) (es1 : ExecState),
        (takeProfitOrder symbol Market.KR sq cfg (some price) outcome now
            es1).2.2.map BrokerOp.opPrice =
          [round_kr_tick (pyInt (price *
            (1 + (if !cfg.isLive then 0 else cfg.limitTpOffsetPct) / 100)))] := by
      intro sq es1
      unfold takeProfitOrder
      rw [if_pos (by simp [hLim])]
      cases outcome with
      | none => simp [BrokerOp.opPrice]
      | some order => by_cases hS : order.success = true <;> simp [hS, BrokerOp.opPrice]
    rcases hGet : alistGet? es.positionStages symbol with _ | si
    · simp only [executeTakeProfit, hGet]
      exact hTP qty _
    · simp only [executeTakeProfit, hGet]
      by_cases hSplit : (cfg.splitSellEnabled && !si.partialSold) = true
      · rw [if_pos hSplit]
        exact hTP _ _
      · rw [if_neg hSplit]
        exact hTP qty _
  · intro symbol cfg cfgR price cashFetch outcome now es si hGet hStage hDip hLim
    simp only [checkSplitBuyOpportunity, hGet]
    rw [if_neg (by omega), if_neg (not_lt.mpr hDip)]
    simp only [hLim, if_true]
    cases outcome with
    | none => simp [BrokerOp.opPrice]
    | some order => by_cases hS : order.success = true <;> simp [hS, BrokerOp.opPrice]

/-- C2: with a positive configured total budget, the daily-loss gate of
`can_trade` (evaluated afresh on a successful cash fetch) denies with the
daily-loss reason exactly when realized P&L is at or below
−(totalBudget × dailyMaxLossPct/100), setting the halt flag on that denial;
with budget 10,000,000 and 3%, P&L −300,001 denies and halts while −299,999
allows; and once halted with a recorded last loss, `can_trade` keeps denying
with the remaining cooldown until `consecutiveLossCooldown` minutes have
elapsed since that loss, after which (the other gates passing) the halt is
cleared and trading is allowed. -/
theorem C2_daily_loss_gate :
    (∀ (cfg : RiskConfig) (s : RiskState) (now : ℚ) (tc : ℕ) (ci : CashInfo),
      0 < cfg.totalBudget →
      tc < cfg.maxDailyTrades →
      s.tradingHalted = false →
      dailyLossCacheFresh now s = false →
      s.cashCache = none →
      (((canTrade cfg tc (some ci) now s).2 = some DenyReason.dailyLoss ↔
          ci.totalPnl ≤ -(cfg.totalBudget * (cfg.dailyMaxLossPct / 100))) ∧
       ((canTrade cfg tc (some ci) now s).2 = none ↔
          ¬ ci.totalPnl ≤ -(cfg.totalBudget * (cfg.dailyMaxLossPct / 100))) ∧
       (ci.totalPnl ≤ -(cfg.totalBudget * (cfg.dailyMaxLossPct / 100)) →
          (canTrade cfg tc (some ci) now s).1.tradingHalted = true))) ∧
    (canTrade cfgBudget 0 (some cashLoss) 0 {}).2 = some DenyReason.dailyLoss ∧
    (canTrade cfgBudget 0 (some cashLoss) 0 {}).1.tradingHalted = true ∧
    (canTrade cfgBudget 0 (some cashOk) 0 {}).2 = none ∧
    (∀ (cfg : RiskConfig) (s : RiskState) (now t : ℚ) (tc : ℕ)
       (fetch : Option CashInfo),
      tc < cfg.maxDailyTrades →
      s.tradingHalted = true →
      s.lastLossTime = some t →
      (((now - t) / 60 < cfg.consecutiveLossCooldown →
          (canTrade cfg tc fetch now s).2 =
            some (DenyReason.cooldown (cfg.consecutiveLossCooldown - (now - t) / 60))) ∧
       (cfg.consecutiveLossCooldown ≤ (now - t) / 60 →
          dailyLossCacheFresh now s = true →
          s.dailyLossCacheOk = true →
          (canTrade cfg tc fetch now s).1.tradingHalted = false ∧
          (canTrade cfg tc fetch now s).2 = none))) := by
  have main : ∀ (cfg : RiskConfig) (s : RiskState) (now : ℚ) (tc : ℕ) (ci : CashInfo),
      0 < cfg.totalBudget → tc < cfg.maxDailyTrades → s.tradingHalted = false →
      dailyLossCacheFresh now s = false → s.cashCache = none →
      (((canTrade cfg tc (some ci) now s).2 = some DenyReason.dailyLoss ↔
          ci.totalPnl ≤ -(cfg.totalBudget * (cfg.dailyMaxLossPct / 100))) ∧
       ((canTrade cfg tc (some ci) now s).2 = none ↔
          ¬ ci.totalPnl ≤ -(cfg.totalBudget * (cfg.dailyMaxLossPct / 100))) ∧
       (ci.totalPnl ≤ -(cfg.totalBudget * (cfg.dailyMaxLossPct / 100)) →
          (canTrade cfg tc (some ci) now s).1.tradingHalted = true)) := by
    intro cfg s now tc ci hB hTC hH hFresh hCC
    rw [canTrade_notHalted cfg tc (some ci) now s hTC hH,
        checkDailyLoss_eval cfg ci now s hB hFresh hCC]
    split_ifs with hP <;> simp_all
  have hLossLe : cashLoss.totalPnl ≤
      -(cfgBudget.totalBudget * (cfgBudget.dailyMaxLossPct / 100)) := by
    norm_num [cashLoss, cfgBudget]
  have hOkGt : ¬ cashOk.totalPnl ≤
      -(cfgBudget.totalBudget * (cfgBudget.dailyMaxLossPct / 100)) := by
    norm_num [cashOk, cfgBudget]
  have hTC20 : (0 : ℕ) < cfgBudget.maxDailyTrades := by norm_num [cfgBudget]
  refine ⟨main, ?_, ?_, ?_, ?_⟩
  · exact (main cfgBudget {} 0 0 cashLoss (by norm_num [cfgBudget]) hTC20
      rfl rfl rfl).1.mpr hLossLe
  · exact (main cfgBudget {} 0 0 cashLoss (by norm_num [cfgBudget]) hTC20
      rfl rfl rfl).2.2 hLossLe
  · exact (main cfgBudget {} 0 0 cashOk (by norm_num [cfgBudget]) hTC20
      rfl rfl rfl).2.1.mpr hOkGt
  · intro cfg s now t tc fetch hTC hH hL
    constructor
    · intro hCool
      rw [canTrade_inCooldown cfg tc fetch now t s hTC hH hL hCool]
    · intro hCool hFresh hOk
      rw [canTrade_cooldownElapsed cfg tc fetch now t s hTC hH hL hCool]
      have hF1 : dailyLossCacheFresh now
          { s with tradingHalted := false, consecutiveLosses := 0, haltCause := none } =
            true := hFresh
      rw [checkDailyLoss_fresh cfg fetch now _ hF1]
      simp [hOk]

/-- C2 witness: the deny-iff part at the spec's −300,001 example and the
cooldown part at a halted state whose 60-minute cooldown has just elapsed. -/
theorem C2_witness :
    ((0 : ℚ) < cfgBudget.totalBudget ∧ 0 < cfgBudget.maxDailyTrades ∧
      RiskState.tradingHalted {} = false ∧ dailyLossCacheFresh 0 {} = false ∧
      RiskState.cashCache {} = none ∧
      ((canTrade cfgBudget 0 (some cashLoss) 0 {}).2 = some DenyReason.dailyLoss ↔
        cashLoss.totalPnl ≤ -(cfgBudget.totalBudget * (cfgBudget.dailyMaxLossPct / 100)))) ∧
    (0 < cfgBudget.maxDailyTrades ∧ haltedState.tradingHalted = true ∧
      haltedState.lastLossTime = some 0 ∧
      cfgBudget.consecutiveLossCooldown ≤ ((3600 : ℚ) - 0) / 60 ∧
      dailyLossCacheFresh 3600 haltedState = true ∧
      haltedState.dailyLossCacheOk = true ∧
      (canTrade cfgBudget 0 (some cashLoss) 3600 haltedState).1.tradingHalted = false ∧
      (canTrade cfgBudget 0 (some cashLoss) 3600 haltedState).2 = none) :=
  ⟨⟨by norm_num [cfgBudget], by norm_num [cfgBudget], rfl, rfl, rfl,
    (C2_daily_loss_gate.1 cfgBudget {} 0 0 cashLoss (by norm_num [cfgBudget])
      (by norm_num [cfgBudget]) rfl rfl rfl).1⟩,
   by norm_num [cfgBudget], rfl, rfl, by norm_num [cfgBudget],
   by norm_num [dailyLossCacheFresh, haltedState], rfl,
   ((C2_daily_loss_gate.2.2.2.2 cfgBudget haltedState 3600 0 0 (some cashLoss)
      (by norm_num [cfgBudget]) rfl rfl).2 (by norm_num [cfgBudget])
      (by norm_num [dailyLossCacheFresh, haltedState]) rfl).1,
   ((C2_daily_loss_gate.2.2.2.2 cfgBudget haltedState 3600 0 0 (some cashLoss)
      (by norm_num [cfgBudget]) rfl rfl).2 (by norm_num [cfgBudget])
      (by norm_num [dailyLossCacheFresh, haltedState]) rfl).2⟩

/-- C4: each `record_stop_loss` increments the consecutive-loss counter and
timestamps it, `record_profit` resets the counter to zero, three consecutive
`record_stop_loss` calls with limit 3 trip the halt, and `can_trade` then
denies with the remaining cooldown until `consecutiveLossCooldown` minutes
have elapsed since the last loss, allowing immediately once they have (the
other gates passing). -/
theorem C4_consecutive_loss_breaker :
    (∀ (cfg : RiskConfig) (s : RiskState) (now : ℚ),
      (recordStopLoss cfg now s).consecutiveLosses = s.consecutiveLosses + 1 ∧
      (recordStopLoss cfg now s).lastLossTime = some now) ∧
    (∀ s : RiskState, (recordProfit s).consecutiveLosses = 0) ∧
    (∀ (cfg : RiskConfig) (s : RiskState) (t1 t2 t3 : ℚ),
      cfg.consecutiveLossLimit = 3 →
      s.consecutiveLosses = 0 →
      ((recordStopLoss cfg t3 (recordStopLoss cfg t2
          (recordStopLoss cfg t1 s))).tradingHalted = true ∧
       (recordStopLoss cfg t3 (recordStopLoss cfg t2
          (recordStopLoss cfg t1 s))).consecutiveLosses = 3 ∧
       (recordStopLoss cfg t3 (recordStopLoss cfg t2
          (recordStopLoss cfg t1 s))).lastLossTime = some t3)) ∧
    (∀ (cfg : RiskConfig) (s : RiskState) (t1 t2 t3 now : ℚ) (tc : ℕ)
       (fetch : Option CashInfo),
      cfg.consecutiveLossLimit = 3 →
      s.consecutiveLosses = 0 →
      tc < cfg.maxDailyTrades →
      (((now - t3) / 60 < cfg.consecutiveLossCooldown →
          (canTrade cfg tc fetch now (recordStopLoss cfg t3 (recordStopLoss cfg t2
              (recordStopLoss cfg t1 s)))).2 =
            some (DenyReason.cooldown
              (cfg.consecutiveLossCooldown - (now - t3) / 60))) ∧
       (cfg.consecutiveLossCooldown ≤ (now - t3) / 60 →
          dailyLossCacheFresh now s = true →
          s.dailyLossCacheOk = true →
          (canTrade cfg tc fetch now (recordStopLoss cfg t3 (recordStopLoss cfg t2
              (recordStopLoss cfg t1 s)))).1.tradingHalted = false ∧
          (canTrade cfg tc fetch now (recordStopLoss cfg t3 (recordStopLoss cfg t2
              (recordStopLoss cfg t1 s)))).2 = none))) := by
  have trip : ∀ (cfg : RiskConfig) (s : RiskState) (t1 t2 t3 : ℚ),
      cfg.consecutiveLossLimit = 3 → s.consecutiveLosses = 0 →
      ((recordStopLoss cfg t3 (recordStopLoss cfg t2
          (recordStopLoss cfg t1 s))).tradingHalted = true ∧
       (recordStopLoss cfg t3 (recordStopLoss cfg t2
          (recordStopLoss cfg t1 s))).consecutiveLosses = 3 ∧
       (recordStopLoss cfg t3 (recordStopLoss cfg t2
          (recordStopLoss cfg t1 s))).lastLossTime = some t3) := by
    intro cfg s t1 t2 t3 hLim hCnt
    simp [recordStopLoss, hLim, hCnt]
  refine ⟨?_, ?_, trip, ?_⟩
  · intro cfg s now
    by_cases h : cfg.consecutiveLossLimit ≤ s.consecutiveLosses + 1 <;>
      simp [recordStopLoss, h]
  · intro s
    rfl
  · intro cfg s t1 t2 t3 now tc fetch hLim hCnt hTC
    obtain ⟨hHalt, _, hLast⟩ := trip cfg s t1 t2 t3 hLim hCnt
    have c1 := recordStopLoss_dailyCache cfg t1 s
    have c2 := recordStopLoss_dailyCache cfg t2 (recordStopLoss cfg t1 s)
    have c3 := recordStopLoss_dailyCache cfg t3
      (recordStopLoss cfg t2 (recordStopLoss cfg t1 s))
    constructor
    · intro hCool
      rw [canTrade_inCooldown cfg tc fetch now t3 _ hTC hHalt hLast hCool]
    · intro hCool hFresh hOk
      rw [canTrade_cooldownElapsed cfg tc fetch now t3 _ hTC hHalt hLast hCool]
      have hF1 : dailyLossCacheFresh now
          { (recordStopLoss cfg t3 (recordStopLoss cfg t2 (recordStopLoss cfg t1 s))) with
            tradingHalted := false, consecutiveLosses := 0, haltCause := none } =
            true := by
        rw [dailyLossCacheFresh_eq now _ s ?_]
        · exact hFresh
        · show (recordStopLoss cfg t3 (recordStopLoss cfg t2
            (recordStopLoss cfg t1 s))).dailyLossCacheTime = s.dailyLossCacheTime
          rw [c3.1, c2.1, c1.1]
      rw [checkDailyLoss_fresh cfg fetch now _ hF1]
      have hOkC : (recordStopLoss cfg t3 (recordStopLoss cfg t2
          (recordStopLoss cfg t1 s))).dailyLossCacheOk = true := by
        rw [c3.2, c2.2, c1.2]
        exact hOk
      refine ⟨rfl, ?_⟩
      simp [hOkC]

/-- C4 witness: three stop-losses from a clean state with the default
configuration (limit 3, 60-minute cooldown) trip the halt, and `can_trade`
allows again at 3600 seconds after the last loss at time 0. -/
theorem C4_witness :
    (RiskConfig.consecutiveLossLimit {} = 3 ∧ RiskState.consecutiveLosses {} = 0 ∧
      (recordStopLoss {} 0 (recordStopLoss {} 0 (recordStopLoss {} 0 {}))).tradingHalted =
        true) ∧
    (RiskState.consecutiveLosses cacheOkState = 0 ∧ 0 < RiskConfig.maxDailyTrades {} ∧
      RiskConfig.consecutiveLossCooldown {} ≤ ((3600 : ℚ) - 0) / 60 ∧
      dailyLossCacheFresh 3600 cacheOkState = true ∧
      cacheOkState.dailyLossCacheOk = true ∧
      (canTrade {} 0 none 3600 (recordStopLoss {} 0 (recordStopLoss {} 0
          (recordStopLoss {} 0 cacheOkState)))).2 = none) :=
  ⟨⟨rfl, rfl, (C4_consecutive_loss_breaker.2.2.1 {} {} 0 0 0 rfl rfl).1⟩,
   rfl, by decide, by show (60 : ℚ) ≤ (3600 - 0) / 60; norm_num,
   by norm_num [dailyLossCacheFresh, cacheOkState], rfl,
   ((C4_consecutive_loss_breaker.2.2.2 {} cacheOkState 0 0 0 3600 0 none rfl rfl
      (by decide)).2 (by show (60 : ℚ) ≤ (3600 - 0) / 60; norm_num)
      (by norm_num [dailyLossCacheFresh, cacheOkState]) rfl).2⟩

/-- C10: the daily-loss gate fails open — without a positive configured total
budget it never changes the halt state and (evaluated afresh) always allows;
and when the cash fetch raises, the gate returns allowed, caches that allowed
verdict, and for the next 60 seconds returns it unchanged for any broker
behaviour whatsoever. -/
theorem C10_fail_open :
    (∀ (cfg : RiskConfig) (fetch : Option CashInfo) (now : ℚ) (s : RiskState),
      ¬ 0 < cfg.totalBudget →
      ((checkDailyLossCached cfg fetch now s).1.tradingHalted = s.tradingHalted ∧
       (checkDailyLossCached cfg fetch now s).1.haltCause = s.haltCause ∧
       (dailyLossCacheFresh now s = false →
         (checkDailyLossCached cfg fetch now s).2 = true))) ∧
    (∀ (cfg : RiskConfig) (now : ℚ) (s : RiskState),
      0 < cfg.totalBudget →
      dailyLossCacheFresh now s = false →
      s.cashCache = none →
      ((checkDailyLossCached cfg none now s).2 = true ∧
       (checkDailyLossCached cfg none now s).1 =
         { s with dailyLossCacheTime := some now, dailyLossCacheOk := true } ∧
       (∀ (now2 : ℚ) (fetch2 : Option CashInfo),
          now2 - now < 60 →
          checkDailyLossCached cfg fetch2 now2
              { s with dailyLossCacheTime := some now, dailyLossCacheOk := true } =
            ({ s with dailyLossCacheTime := some now, dailyLossCacheOk := true },
             true)))) := by
  constructor
  · intro cfg fetch now s hB
    by_cases hFresh : dailyLossCacheFresh now s = true
    · rw [checkDailyLoss_fresh cfg fetch now s hFresh]
      exact ⟨rfl, rfl, fun h => by rw [hFresh] at h; exact absurd h (by simp)⟩
    · rw [checkDailyLoss_noBudget cfg fetch now s hB (by simpa using hFresh)]
      exact ⟨rfl, rfl, fun _ => rfl⟩
  · intro cfg now s hB hFresh hCC
    rw [checkDailyLoss_fetchRaises cfg now s hB hFresh hCC]
    refine ⟨rfl, rfl, ?_⟩
    intro now2 fetch2 h60
    have hF2 : dailyLossCacheFresh now2
        { s with dailyLossCacheTime := some now, dailyLossCacheOk := true } = true := by
      unfold dailyLossCacheFresh
      simpa using h60
    rw [checkDailyLoss_fresh cfg fetch2 now2 _ hF2]

/-- C10 witness: budget 10,000,000, clean state, cash fetch raising at time 0;
the allowed verdict is cached and still returned at time 59 even for a fetch
reporting a P&L of −300,001. -/
theorem C10_witness :
    ((0 : ℚ) < cfgBudget.totalBudget ∧ dailyLossCacheFresh 0 {} = false ∧
      RiskState.cashCache {} = none) ∧
    (checkDailyLossCached cfgBudget none 0 {}).2 = true ∧
    ((59 : ℚ) - 0 < 60 ∧
      checkDailyLossCached cfgBudget (some cashLoss) 59
          { ({} : RiskState) with dailyLossCacheTime := some 0, dailyLossCacheOk := true } =
        ({ ({} : RiskState) with dailyLossCacheTime := some 0, dailyLossCacheOk := true },
         true)) :=
  ⟨⟨by norm_num [cfgBudget], rfl, rfl⟩,
   (C10_fail_open.2 cfgBudget 0 {} (by norm_num [cfgBudget]) rfl rfl).1,
   by norm_num,
   (C10_fail_open.2 cfgBudget 0 {} (by norm_num [cfgBudget]) rfl rfl).2.2 59
     (some cashLoss) (by norm_num)⟩

/-- C5: `calculate_buy_qty` returns the floor of the per-symbol allocation
(base amount over the step-table slot count, capped at 95% of cash) divided
by price, the allocation being converted through the configured USD/KRW rate
first for the US market; the base amount is the fixed total budget when
positive and the live total valuation otherwise; the result is never
negative and is 0 on a nonpositive price, a nonpositive base amount, or a
raising cash fetch; and the slot table is exactly
{<10M→2, <30M→3, <50M→5, <100M→7, else→10}. -/
theorem C5_calculate_buy_qty :
    (∀ (cfg : RiskConfig) (ci : CashInfo) (now : ℚ) (s : RiskState) (price : ℚ),
      s.cashCache = none →
      0 < price →
      0 ≤ ci.cash →
      0 < (if 0 < cfg.totalBudget then cfg.totalBudget else ci.totalEval) →
      ((calculateBuyQty cfg (some ci) now s price Market.KR).2 =
        ⌊specAllocation (if 0 < cfg.totalBudget then cfg.totalBudget else ci.totalEval)
            ci.cash / price⌋ ∧
       (0 < cfg.usdKrwRate →
        (calculateBuyQty cfg (some ci) now s price Market.US).2 =
          ⌊specAllocation (if 0 < cfg.totalBudget then cfg.totalBudget else ci.totalEval)
              ci.cash / cfg.usdKrwRate / price⌋))) ∧
    (∀ (cfg : RiskConfig) (fetch : Option CashInfo) (now : ℚ) (s : RiskState)
       (price : ℚ) (market : Market),
      0 ≤ (calculateBuyQty cfg fetch now s price market).2) ∧
    (∀ (cfg : RiskConfig) (fetch : Option CashInfo) (now : ℚ) (s : RiskState)
       (price : ℚ) (market : Market),
      price ≤ 0 → (calculateBuyQty cfg fetch now s price market).2 = 0) ∧
    (∀ (cfg : RiskConfig) (ci : CashInfo) (now : ℚ) (s : RiskState) (price : ℚ)
       (market : Market),
      s.cashCache = none →
      (if 0 < cfg.totalBudget then cfg.totalBudget else ci.totalEval) ≤ 0 →
      (calculateBuyQty cfg (some ci) now s price market).2 = 0) ∧
    (∀ (cfg : RiskConfig) (now : ℚ) (s : RiskState) (price : ℚ) (market : Market),
      s.cashCache = none →
      (calculateBuyQty cfg none now s price market).2 = 0) ∧
    (∀ b : ℚ,
      (b < 10000000 → calcMaxStocks b = 2) ∧
      (10000000 ≤ b → b < 30000000 → calcMaxStocks b = 3) ∧
      (30000000 ≤ b → b < 50000000 → calcMaxStocks b = 5) ∧
      (50000000 ≤ b → b < 100000000 → calcMaxStocks b = 7) ∧
      (100000000 ≤ b → calcMaxStocks b = 10)) := by
  refine ⟨?_, calculateBuyQty_nonneg, ?_, ?_, ?_, ?_⟩
  · intro cfg ci now s price hCC hPrice hCash hBase
    have hA : (0 : ℚ) ≤
        min ((if 0 < cfg.totalBudget then cfg.totalBudget else ci.totalEval) /
              (calcMaxStocks (if 0 < cfg.totalBudget then cfg.totalBudget
                else ci.totalEval) : ℚ))
            (ci.cash * (95 / 100)) :=
      le_min (div_nonneg hBase.le (Nat.cast_nonneg _)) (mul_nonneg hCash (by norm_num))
    constructor
    · simp only [calculateBuyQty, getCashInfo_fetch ci now s hCC]
      rw [if_neg (not_le.mpr hPrice), if_neg (not_le.mpr hBase),
          pyInt_eq_floor (div_nonneg hA hPrice.le),
          max_eq_left (Int.floor_nonneg.mpr (div_nonneg hA hPrice.le))]
      rfl
    · intro hRate
      simp only [calculateBuyQty, getCashInfo_fetch ci now s hCC]
      rw [if_neg (not_le.mpr hPrice), if_neg (not_le.mpr hBase),
          pyInt_eq_floor (div_nonneg (div_nonneg hA hRate.le) hPrice.le),
          max_eq_left (Int.floor_nonneg.mpr
            (div_nonneg (div_nonneg hA hRate.le) hPrice.le))]
      rfl
  · intro cfg fetch now s price market hP
    unfold calculateBuyQty
    rcases hg : getCashInfo fetch now s with ⟨s2, ci?⟩
    rcases ci? with _ | ci
    · simp [hg]
    · simp [hg, if_pos hP]
  · intro cfg ci now s price market hCC hBase
    simp only [calculateBuyQty, getCashInfo_fetch ci now s hCC]
    by_cases hP : price ≤ 0
    · simp [hP]
    · simp [hP, if_pos hBase]
  · intro cfg now s price market hCC
    simp only [calculateBuyQty, getCashInfo_raises now s hCC]
  · intro b
    refine ⟨?_, ?_, ?_, ?_, ?_⟩
    · intro h
      unfold calcMaxStocks
      rw [if_pos h]
    · intro h1 h2
      unfold calcMaxStocks
      rw [if_neg (by linarith), if_pos h2]
    · intro h1 h2
      unfold calcMaxStocks
      rw [if_neg (by linarith), if_neg (by linarith), if_pos h2]
    · intro h1 h2
      unfold calcMaxStocks
      rw [if_neg (by linarith), if_neg (by linarith), if_neg (by linarith), if_pos h2]
    · intro h1
      unfold calcMaxStocks
      rw [if_neg (by linarith), if_neg (by linarith), if_neg (by linarith),
          if_neg (by linarith)]

/-- C5 witness: the KR formula at budget 10,000,000, cash 20,000,000 and
price 70,000. -/
theorem C5_witness :
    RiskState.cashCache {} = none ∧ (0 : ℚ) < 70000 ∧ (0 : ℚ) ≤ cashRich.cash ∧
    (0 : ℚ) <
      (if 0 < cfgBudget.totalBudget then cfgBudget.totalBudget else cashRich.totalEval) ∧
    (calculateBuyQty cfgBudget (some cashRich) 0 {} 70000 Market.KR).2 =
      ⌊specAllocation
          (if 0 < cfgBudget.totalBudget then cfgBudget.totalBudget else cashRich.totalEval)
          cashRich.cash / 70000⌋ :=
  ⟨rfl, by norm_num, by norm_num [cashRich], by norm_num [cfgBudget],
   (C5_calculate_buy_qty.1 cfgBudget cashRich 0 {} 70000 rfl (by norm_num)
     (by norm_num [cashRich]) (by norm_num [cfgBudget])).1⟩

/-- C6: after `check_positions` raises high-water marks to the current price
where it exceeds the stored high, a position (with positive effective high) is
flagged for take-profit exactly when `pnlPct ≥ takePct` or trailing is active
(`pnlPct ≥ trailingActivationPct`) and the drop from the high reaches
`trailingStopPct`; in the spec's scenario (entry 100, rise to 110, fall to
107.8, activation 3%, trailing 2%) the drop from the high is exactly 2% and
the position is flagged. -/
theorem C6_trailing_take_profit :
    (∀ (cfg : RiskConfig) (dyn : List (String × (ℚ × ℚ))) (hwm : List (String × ℚ))
       (positions : List Position) (pos : Position),
      0 < (alistGet? (updateHighWatermarks positions hwm) pos.symbol).getD
          pos.currentPrice →
      (pos ∈ (checkPositions cfg dyn hwm positions).profitTargets ↔
        (pos ∈ positions ∧
         ((getThresholds cfg dyn pos.symbol).2 ≤ pos.pnlPct ∨
          (cfg.trailingActivationPct ≤ pos.pnlPct ∧
           cfg.trailingStopPct ≤
             (((alistGet? (updateHighWatermarks positions hwm) pos.symbol).getD
                 pos.currentPrice) - pos.currentPrice) /
               ((alistGet? (updateHighWatermarks positions hwm) pos.symbol).getD
                 pos.currentPrice) * 100))))) ∧
    updateHighWatermarks [pos110] [] = [("A", 110)] ∧
    updateHighWatermarks [pos1078] [("A", 110)] = [("A", 110)] ∧
    (110 - pos1078.currentPrice) / 110 * 100 = 2 ∧
    pos1078 ∈ (checkPositions {} [] [("A", (110 : ℚ))] [pos1078]).profitTargets := by
  have main : ∀ (cfg : RiskConfig) (dyn : List (String × (ℚ × ℚ)))
      (hwm : List (String × ℚ)) (positions : List Position) (pos : Position),
      0 < (alistGet? (updateHighWatermarks positions hwm) pos.symbol).getD
          pos.currentPrice →
      (pos ∈ (checkPositions cfg dyn hwm positions).profitTargets ↔
        (pos ∈ positions ∧
         ((getThresholds cfg dyn pos.symbol).2 ≤ pos.pnlPct ∨
          (cfg.trailingActivationPct ≤ pos.pnlPct ∧
           cfg.trailingStopPct ≤
             (((alistGet? (updateHighWatermarks positions hwm) pos.symbol).getD
                 pos.currentPrice) - pos.currentPrice) /
               ((alistGet? (updateHighWatermarks positions hwm) pos.symbol).getD
                 pos.currentPrice) * 100)))) := by
    intro cfg dyn hwm positions pos hHigh
    show pos ∈ (checkTakeProfit cfg dyn (updateHighWatermarks positions hwm) positions) ↔ _
    unfold checkTakeProfit
    rw [List.mem_filter,
        takeProfitFlagged_iff cfg dyn (updateHighWatermarks positions hwm) pos hHigh]
  refine ⟨main, by norm_num [updateHighWatermarks, alistGet?, alistSet, pos110],
    by norm_num [updateHighWatermarks, alistGet?, alistSet, pos1078],
    by norm_num [pos1078], ?_⟩
  have hHigh : 0 < (alistGet? (updateHighWatermarks [pos1078] [("A", (110 : ℚ))])
      pos1078.symbol).getD pos1078.currentPrice := by
    norm_num [updateHighWatermarks, alistGet?, alistSet, pos1078]
  refine (main {} [] [("A", (110 : ℚ))] [pos1078] pos1078 hHigh).mpr ⟨by simp, Or.inr ⟨?_, ?_⟩⟩
  · norm_num [pos1078]
  · have : (alistGet? (updateHighWatermarks [pos1078] [("A", (110 : ℚ))])
        pos1078.symbol).getD pos1078.currentPrice = 110 := by
      norm_num [updateHighWatermarks, alistGet?, alistSet, pos1078]
    rw [this]
    norm_num [pos1078]

/-- C6 witness: the flagged-iff statement applied to the 110 → 107.8 trailing
scenario. -/
theorem C6_witness :
    0 < (alistGet? (updateHighWatermarks [pos1078] [("A", (110 : ℚ))])
        pos1078.symbol).getD pos1078.currentPrice ∧
    (pos1078 ∈ (checkPositions {} [] [("A", (110 : ℚ))] [pos1078]).profitTargets ↔
      (pos1078 ∈ [pos1078] ∧
       ((getThresholds {} [] pos1078.symbol).2 ≤ pos1078.pnlPct ∨
        (RiskConfig.trailingActivationPct {} ≤ pos1078.pnlPct ∧
         RiskConfig.trailingStopPct {} ≤
           (((alistGet? (updateHighWatermarks [pos1078] [("A", (110 : ℚ))])
               pos1078.symbol).getD pos1078.currentPrice) - pos1078.currentPrice) /
             ((alistGet? (updateHighWatermarks [pos1078] [("A", (110 : ℚ))])
               pos1078.symbol).getD pos1078.currentPrice) * 100)))) :=
  ⟨by norm_num [updateHighWatermarks, alistGet?, alistSet, pos1078],
   C6_trailing_take_profit.1 {} [] [("A", (110 : ℚ))] [pos1078] pos1078
     (by norm_num [updateHighWatermarks, alistGet?, alistSet, pos1078])⟩

/-- The order-placement tail of `execute_take_profit` never touches the
position-stage map. -/
theorem takeProfitOrder_stages (symbol : String) (market : Market) (sellQty : ℤ)
    (cfg : ExecConfig) (priceFetch : Option ℚ) (outcome : Option OrderResult)
    (now : ℚ) (es : ExecState) :
    (takeProfitOrder symbol market sellQty cfg priceFetch outcome now es).1.positionStages =
      es.positionStages := by
  unfold takeProfitOrder
  by_cases hM : (market == Market.KR && cfg.limitOrderEnabled) = true
  · rw [if_pos hM]
    cases priceFetch with
    | none => rfl
    | some price =>
        cases outcome with
        | none => rfl
        | some order =>
            by_cases hS : order.success = true <;> simp [hS, recordProfit]
  · rw [if_neg hM]
    cases outcome with
    | none => rfl
    | some order =>
        by_cases hS : order.success = true <;> simp [hS, recordProfit]

/-- C3 counterexample: the claim says a take-profit call whose sell order
fails leaves the stage record and the partial-exit flag unchanged. In the
code both mutations happen before the order is placed: with split-sell
enabled a failed sell still marks `partial_sold`, and in the full-exit case a
failed sell still deletes the stage record. -/
theorem C3_counterexample :
    stageA.partialSold = false ∧
    alistGet? (executeTakeProfit "A" Market.KR 10 {} (some 100) (some failedOrder) 0
        { positionStages := [("A", stageA)] }).1.positionStages "A" =
      some { stageA with partialSold := true } ∧
    (executeTakeProfit "A" Market.KR 10 {} (some 100) (some failedOrder) 0
        { positionStages := [("A", { stageA with partialSold := true })] }).1.positionStages =
      [] := by
  refine ⟨rfl, ?_, ?_⟩
  · simp [executeTakeProfit, takeProfitOrder, alistGet?, alistSet, stageA, failedOrder,
      List.find?]
  · simp [executeTakeProfit, takeProfitOrder, alistGet?, alistErase, stageA, failedOrder,
      List.find?, List.filter]

/-- C3 (amended): `execute_stop_loss` deletes the stage record exactly on a
successful sell (failures and exceptions leave it unchanged), while
`execute_take_profit` mutates the stage map at decision time, before the
order is placed: when split-sell applies (record present, partial exit not
yet done) it marks `partial_sold`, otherwise it deletes the record — in both
cases regardless of the sell order's outcome. -/
theorem C3_stage_lifecycle :
    (∀ (symbol : String) (market : Market) (qty : ℤ) (cfgR : RiskConfig)
       (outcome : Option OrderResult) (now : ℚ) (es : ExecState),
      ((executeStopLoss symbol market qty cfgR none now es).1.positionStages =
        es.positionStages) ∧
      (∀ o : OrderResult, o.success = false →
        (executeStopLoss symbol market qty cfgR (some o) now es).1.positionStages =
          es.positionStages) ∧
      (∀ o : OrderResult, o.success = true →
        (executeStopLoss symbol market qty cfgR (some o) now es).1.positionStages =
          alistErase es.positionStages symbol)) ∧
    (∀ (symbol : String) (market : Market) (qty : ℤ) (cfg : ExecConfig)
       (priceFetch : Option ℚ) (outcome : Option OrderResult) (now : ℚ)
       (es : ExecState) (si : StageInfo),
      alistGet? es.positionStages symbol = some si →
      ((cfg.splitSellEnabled = true → si.partialSold = false →
        (executeTakeProfit symbol market qty cfg priceFetch outcome now
            es).1.positionStages =
          alistSet es.positionStages symbol { si with partialSold := true }) ∧
       (cfg.splitSellEnabled = false ∨ si.partialSold = true →
        (executeTakeProfit symbol market qty cfg priceFetch outcome now
            es).1.positionStages =
          alistErase es.positionStages symbol))) ∧
    (∀ (symbol : String) (market : Market) (qty : ℤ) (cfg : ExecConfig)
       (priceFetch : Option ℚ) (outcome : Option OrderResult) (now : ℚ)
       (es : ExecState),
      alistGet? es.positionStages symbol = none →
      (executeTakeProfit symbol market qty cfg priceFetch outcome now
          es).1.positionStages =
        alistErase es.positionStages symbol) := by
  refine ⟨?_, ?_, ?_⟩
  · intro symbol market qty cfgR outcome now es
    refine ⟨rfl, ?_, ?_⟩
    · intro o hF
      unfold executeStopLoss
      simp [hF]
    · intro o hS
      unfold executeStopLoss
      simp [hS]
  · intro symbol market qty cfg priceFetch outcome now es si hGet
    constructor
    · intro hSplit hNotSold
      unfold executeTakeProfit
      rw [hGet]
      simp only [hSplit, hNotSold, Bool.not_false, Bool.and_self, if_true]
      rw [takeProfitOrder_stages]
    · intro hOr
      unfold executeTakeProfit
      rw [hGet]
      have hCond : (cfg.splitSellEnabled && !si.partialSold) = false := by
        rcases hOr with h | h <;> simp [h]
      simp only [hCond, Bool.false_eq_true, if_false]
      rw [takeProfitOrder_stages]
  · intro symbol market qty cfg priceFetch outcome now es hGet
    unfold executeTakeProfit
    rw [hGet]
    rw [takeProfitOrder_stages]

/-- C3 witness: the amended statement at the counterexample's concrete inputs
— a failed split take-profit sell marks `partial_sold`, and a successful
stop-loss sell deletes the record. -/
theorem C3_witness :
    (alistGet? ([("A", stageA)] : List (String × StageInfo)) "A" = some stageA ∧
     ExecConfig.splitSellEnabled {} = true ∧ stageA.partialSold = false ∧
     (executeTakeProfit "A" Market.KR 10 {} (some 100) (some failedOrder) 0
         { positionStages := [("A", stageA)] }).1.positionStages =
       alistSet [("A", stageA)] "A" { stageA with partialSold := true }) ∧
    (OrderResult.success { success := true } = true ∧
     (executeStopLoss "A" Market.KR 10 {} (some { success := true }) 0
         { positionStages := [("A", stageA)] }).1.positionStages =
       alistErase [("A", stageA)] "A") :=
  ⟨⟨by simp [alistGet?, List.find?], rfl, rfl,
    (C3_stage_lifecycle.2.1 "A" Market.KR 10 {} (some 100) (some failedOrder) 0
      { positionStages := [("A", stageA)] } stageA
      (by simp [alistGet?, List.find?])).1 rfl rfl⟩,
   rfl,
   (C3_stage_lifecycle.1 "A" Market.KR 10 {} (some { success := true }) 0
     { positionStages := [("A", stageA)] }).2.2 { success := true } rfl⟩

/-- C7: `execute_signal` ignores HOLD; a BUY for a symbol the 30-second
cached snapshot reports as held, and a SELL for one it reports as not held,
return with no broker order and no dispatch; and on a `can_trade` denial the
reason is surfaced to the error notifier and no broker order is placed. -/
theorem C7_signal_guards :
    (∀ (symbol : String) (market : Market) (cfg : ExecConfig) (cfgR : RiskConfig)
       (env : SignalEnv) (now : ℚ) (es : ExecState),
      executeSignal symbol market Signal.HOLD cfg cfgR env now es =
        (es, none, [], none)) ∧
    (∀ (symbol : String) (market : Market) (cfg : ExecConfig) (cfgR : RiskConfig)
       (env : SignalEnv) (now : ℚ) (es : ExecState),
      (isHolding symbol market env.balFetch now es).2 = true →
      executeSignal symbol market Signal.BUY cfg cfgR env now es =
        ((isHolding symbol market env.balFetch now es).1, none, [], none)) ∧
    (∀ (symbol : String) (market : Market) (cfg : ExecConfig) (cfgR : RiskConfig)
       (env : SignalEnv) (now : ℚ) (es : ExecState),
      (isHolding symbol market env.balFetch now es).2 = false →
      executeSignal symbol market Signal.SELL cfg cfgR env now es =
        ((isHolding symbol market env.balFetch now es).1, none, [], none)) ∧
    (∀ (symbol : String) (market : Market) (signal : Signal) (cfg : ExecConfig)
       (cfgR : RiskConfig) (env : SignalEnv) (now : ℚ) (es : ExecState)
       (r : DenyReason),
      signal ≠ Signal.HOLD →
      (signal = Signal.SELL →
        (isHolding symbol market env.balFetch now es).2 = true) →
      (signal = Signal.BUY →
        (isHolding symbol market env.balFetch now es).2 = false) →
      (canTrade cfgR env.tradeCount env.cashFetch now
          (isHolding symbol market env.balFetch now es).1.risk).2 = some r →
      executeSignal symbol market signal cfg cfgR env now es =
        ({ (isHolding symbol market env.balFetch now es).1 with
            risk := (canTrade cfgR env.tradeCount env.cashFetch now
              (isHolding symbol market env.balFetch now es).1.risk).1 },
         none, [], some r)) := by
  refine ⟨?_, ?_, ?_, ?_⟩
  · intro symbol market cfg cfgR env now es
    rfl
  · intro symbol market cfg cfgR env now es hHeld
    simp [executeSignal, hHeld]
  · intro symbol market cfg cfgR env now es hHeld
    simp [executeSignal, hHeld]
  · intro symbol market signal cfg cfgR env now es r hNotHold hSell hBuy hDeny
    cases signal with
    | HOLD => exact absurd rfl hNotHold
    | SELL =>
        have hHeld := hSell rfl
        simp [executeSignal, hHeld, hDeny]
    | BUY =>
        have hHeld := hBuy rfl
        simp [executeSignal, hHeld, hDeny]

/-- C7 witness: the guards evaluated on a concrete held snapshot ("A" held
with qty 10) and a cooldown denial from a halted risk state. -/
theorem C7_witness :
    (isHolding "A" Market.KR (some [pos110]) 0 {}).2 = true ∧
    executeSignal "A" Market.KR Signal.BUY {} {} { balFetch := some [pos110] } 0 {} =
      ((isHolding "A" Market.KR (some [pos110]) 0 {}).1, none, [], none) ∧
    (isHolding "B" Market.KR (some [pos110]) 0 {}).2 = false ∧
    executeSignal "B" Market.KR Signal.SELL {} {} { balFetch := some [pos110] } 0 {} =
      ((isHolding "B" Market.KR (some [pos110]) 0 {}).1, none, [], none) :=
  ⟨by norm_num [isHolding, getCachedPositions, alistGet?, alistSet, pos110],
   C7_signal_guards.2.1 "A" Market.KR {} {} { balFetch := some [pos110] } 0 {}
     (by norm_num [isHolding, getCachedPositions, alistGet?, alistSet, pos110]),
   by norm_num [isHolding, getCachedPositions, alistGet?, alistSet, pos110]; decide,
   C7_signal_guards.2.2.1 "B" Market.KR {} {} { balFetch := some [pos110] } 0 {}
     (by norm_num [isHolding, getCachedPositions, alistGet?, alistSet, pos110]; decide)⟩

/-- The pending-order sweep never introduces a key. -/
theorem sweepPending_absent (cfg : ExecConfig) (co : String → Option OrderResult)
    (now : ℚ) (items : List (String × PendingInfo)) (s : ExecState) (k : String)
    (h : alistGet? s.pendingOrders k = none) :
    alistGet? (sweepPending cfg co now items s).1.pendingOrders k = none := by
  induction items generalizing s with
  | nil => exact h
  | cons kv rest ih =>
      rcases kv with ⟨k2, info⟩
      unfold sweepPending
      by_cases hexp : cfg.limitOrderTimeoutSec ≤ now - info.placedAt
      · rw [if_pos hexp]
        show alistGet? (sweepPending cfg co now rest
            { s with pendingOrders := alistErase s.pendingOrders k2 }).1.pendingOrders
            k = none
        exact ih _ (alistGet?_erase_none _ k k2 h)
      · rw [if_neg hexp]
        exact ih s h

/-- A timed-out entry in the iterated snapshot ends up removed. -/
theorem sweepPending_removes (cfg : ExecConfig) (co : String → Option OrderResult)
    (now : ℚ) (items : List (String × PendingInfo)) (s : ExecState) (k : String)
    (info : PendingInfo) (hmem : (k, info) ∈ items)
    (hexp : cfg.limitOrderTimeoutSec ≤ now - info.placedAt) :
    alistGet? (sweepPending cfg co now items s).1.pendingOrders k = none := by
  induction items generalizing s with
  | nil => simp at hmem
  | cons kv rest ih =>
      rcases kv with ⟨k2, info2⟩
      rcases List.mem_cons.1 hmem with heq | hrest
      · rw [Prod.mk.injEq] at heq
        obtain ⟨h1, h2⟩ := heq
        subst h1
        subst h2
        unfold sweepPending
        rw [if_pos hexp]
        show alistGet? (sweepPending cfg co now rest
            { s with pendingOrders := alistErase s.pendingOrders k }).1.pendingOrders
            k = none
        exact sweepPending_absent cfg co now rest _ k (alistGet?_erase_self _ k)
      · unfold sweepPending
        by_cases hexp2 : cfg.limitOrderTimeoutSec ≤ now - info2.placedAt
        · rw [if_pos hexp2]
          exact ih _ hrest
        · rw [if_neg hexp2]
          exact ih s hrest

/-- A timed-out KR entry in the iterated snapshot gets a broker cancel. -/
theorem sweepPending_cancels (cfg : ExecConfig) (co : String → Option OrderResult)
    (now : ℚ) (items : List (String × PendingInfo)) (s : ExecState) (k : String)
    (info : PendingInfo) (hmem : (k, info) ∈ items)
    (hexp : cfg.limitOrderTimeoutSec ≤ now - info.placedAt)
    (hKR : info.market = Market.KR) :
    BrokerOp.cancelKR info.orderNo info.symbol info.qty ∈
      (sweepPending cfg co now items s).2 := by
  induction items generalizing s with
  | nil => simp at hmem
  | cons kv rest ih =>
      rcases kv with ⟨k2, info2⟩
      rcases List.mem_cons.1 hmem with heq | hrest
      · rw [Prod.mk.injEq] at heq
        obtain ⟨h1, h2⟩ := heq
        subst h1
        subst h2
        unfold sweepPending
        rw [if_pos hexp]
        show BrokerOp.cancelKR info.orderNo info.symbol info.qty ∈
          (if info.market == Market.KR then
            [BrokerOp.cancelKR info.orderNo info.symbol info.qty] else []) ++
          (sweepPending cfg co now rest
            { s with pendingOrders := alistErase s.pendingOrders k }).2
        rw [if_pos (by simp [hKR])]
        exact List.mem_append_left _ (List.mem_singleton.2 rfl)
      · unfold sweepPending
        by_cases hexp2 : cfg.limitOrderTimeoutSec ≤ now - info2.placedAt
        · rw [if_pos hexp2]
          show BrokerOp.cancelKR info.orderNo info.symbol info.qty ∈
            (if info2.market == Market.KR then
              [BrokerOp.cancelKR info2.orderNo info2.symbol info2.qty] else []) ++
            (sweepPending cfg co now rest
              { s with pendingOrders := alistErase s.pendingOrders k2 }).2
          exact List.mem_append_right _ (ih _ hrest)
        · rw [if_neg hexp2]
          exact ih s hrest

/-- When no iterated entry with our key has timed out, the sweep leaves our
binding's lookup unchanged. -/
theorem sweepPending_keeps (cfg : ExecConfig) (co : String → Option OrderResult)
    (now : ℚ) (items : List (String × PendingInfo)) (s : ExecState) (k : String)
    (hsafe : ∀ k2 info2, (k2, info2) ∈ items →
      cfg.limitOrderTimeoutSec ≤ now - info2.placedAt → k2 ≠ k) :
    alistGet? (sweepPending cfg co now items s).1.pendingOrders k =
      alistGet? s.pendingOrders k := by
  induction items generalizing s with
  | nil => rfl
  | cons kv rest ih =>
      rcases kv with ⟨k2, info2⟩
      unfold sweepPending
      by_cases hexp : cfg.limitOrderTimeoutSec ≤ now - info2.placedAt
      · rw [if_pos hexp]
        have hne : k2 ≠ k := hsafe k2 info2 (List.mem_cons_self _ _) hexp
        show alistGet? (sweepPending cfg co now rest
            { s with pendingOrders := alistErase s.pendingOrders k2 }).1.pendingOrders
          k = alistGet? s.pendingOrders k
        rw [ih _ (fun k3 info3 h3 => hsafe k3 info3 (List.mem_cons_of_mem _ h3))]
        exact alistGet?_erase_ne _ k k2 hne
      · rw [if_neg hexp]
        exact ih s (fun k3 info3 h3 => hsafe k3 info3 (List.mem_cons_of_mem _ h3))

/-- The sweep's entire result is independent of the cancel oracle: cancel
replies (and cancel exceptions) only affect logging in the source. -/
theorem sweepPending_oracle_irrelevant (cfg : ExecConfig)
    (co co2 : String → Option OrderResult) (now : ℚ)
    (items : List (String × PendingInfo)) (s : ExecState) :
    sweepPending cfg co now items s = sweepPending cfg co2 now items s := by
  induction items generalizing s with
  | nil => rfl
  | cons kv rest ih =>
      rcases kv with ⟨k2, info⟩
      unfold sweepPending
      by_cases hexp : cfg.limitOrderTimeoutSec ≤ now - info.placedAt
      · rw [if_pos hexp, if_pos hexp]
        simp only [ih]
      · rw [if_neg hexp, if_neg hexp]
        exact ih s

/-- C8: every pending record whose age has reached `limitOrderTimeoutSec`
gets a broker cancel (its market being KR, the only market the engine
registers pending orders for) and is removed from the pending map regardless
of the cancel outcome — the sweep's result does not depend on the cancel
oracle at all, so a failing or raising cancel still clears the record; every
record younger than the timeout is left unchanged (keys being distinct, as in
a dict); and a record placed at 0 with timeout 300 is cancelled and removed
when swept at 301 and untouched at 299. -/
theorem C8_pending_sweep :
    (∀ (cfg : ExecConfig) (co : String → Option OrderResult) (now : ℚ)
       (es : ExecState) (k : String) (info : PendingInfo),
      (k, info) ∈ es.pendingOrders →
      cfg.limitOrderTimeoutSec ≤ now - info.placedAt →
      ((info.market = Market.KR →
        BrokerOp.cancelKR info.orderNo info.symbol info.qty ∈
          (checkPendingOrders cfg co now es).2) ∧
       alistGet? (checkPendingOrders cfg co now es).1.pendingOrders k = none)) ∧
    (∀ (cfg : ExecConfig) (co co2 : String → Option OrderResult) (now : ℚ)
       (es : ExecState),
      checkPendingOrders cfg co now es = checkPendingOrders cfg co2 now es) ∧
    (∀ (cfg : ExecConfig) (co : String → Option OrderResult) (now : ℚ)
       (es : ExecState) (k : String) (info : PendingInfo),
      (es.pendingOrders.map Prod.fst).Nodup →
      (k, info) ∈ es.pendingOrders →
      now - info.placedAt < cfg.limitOrderTimeoutSec →
      alistGet? (checkPendingOrders cfg co now es).1.pendingOrders k = some info) ∧
    (checkPendingOrders {} (fun _ => none) 301
        { pendingOrders := [("A", pendA)] }).1.pendingOrders = [] ∧
    (checkPendingOrders {} (fun _ => none) 301
        { pendingOrders := [("A", pendA)] }).2 = [BrokerOp.cancelKR "1" "A" 3] ∧
    (checkPendingOrders {} (fun _ => none) 299
        { pendingOrders := [("A", pendA)] }).1.pendingOrders = [("A", pendA)] ∧
    (checkPendingOrders {} (fun _ => none) 299
        { pendingOrders := [("A", pendA)] }).2 = [] := by
  refine ⟨?_, ?_, ?_, ?_, ?_, ?_, ?_⟩
  · intro cfg co now es k info hmem hexp
    exact ⟨fun hKR => sweepPending_cancels cfg co now es.pendingOrders es k info
        hmem hexp hKR,
      sweepPending_removes cfg co now es.pendingOrders es k info hmem hexp⟩
  · intro cfg co co2 now es
    exact sweepPending_oracle_irrelevant cfg co co2 now es.pendingOrders es
  · intro cfg co now es k info hnd hmem hyoung
    rw [checkPendingOrders, sweepPending_keeps cfg co now es.pendingOrders es k ?_]
    · exact alistGet?_of_nodup es.pendingOrders k info hnd hmem
    · intro k2 info2 hmem2 hexp2
      intro hk
      subst hk
      have := alistGet?_of_nodup es.pendingOrders k2 info hnd hmem
      have h2 := alistGet?_of_nodup es.pendingOrders k2 info2 hnd hmem2
      rw [this] at h2
      injection h2 with h2
      subst h2
      exact absurd hexp2 (not_le.mpr hyoung)
  · norm_num [checkPendingOrders, sweepPending, alistErase, pendA, List.filter]
  · norm_num [checkPendingOrders, sweepPending, alistErase, pendA, List.filter]
  · norm_num [checkPendingOrders, sweepPending, pendA]
  · norm_num [checkPendingOrders, sweepPending, pendA]

/-- C8 witness: the general removal statement applied to the record placed at
0 and swept at 301, and the untouched statement at 299. -/
theorem C8_witness :
    (("A", pendA) ∈ [("A", pendA)] ∧
      ExecConfig.limitOrderTimeoutSec {} ≤ (301 : ℚ) - pendA.placedAt ∧
      (pendA.market = Market.KR →
        BrokerOp.cancelKR pendA.orderNo pendA.symbol pendA.qty ∈
          (checkPendingOrders {} (fun _ => none) 301
            { pendingOrders := [("A", pendA)] }).2) ∧
      alistGet? (checkPendingOrders {} (fun _ => none) 301
          { pendingOrders := [("A", pendA)] }).1.pendingOrders "A" = none) ∧
    ((299 : ℚ) - pendA.placedAt < ExecConfig.limitOrderTimeoutSec {} ∧
      alistGet? (checkPendingOrders {} (fun _ => none) 299
          { pendingOrders := [("A", pendA)] }).1.pendingOrders "A" = some pendA) :=
  ⟨⟨List.mem_singleton.2 rfl, by norm_num [pendA],
    (C8_pending_sweep.1 {} (fun _ => none) 301 { pendingOrders := [("A", pendA)] }
      "A" pendA (List.mem_singleton.2 rfl) (by norm_num [pendA])).1,
    (C8_pending_sweep.1 {} (fun _ => none) 301 { pendingOrders := [("A", pendA)] }
      "A" pendA (List.mem_singleton.2 rfl) (by norm_num [pendA])).2⟩,
   by norm_num [pendA],
   C8_pending_sweep.2.2.1 {} (fun _ => none) 299 { pendingOrders := [("A", pendA)] }
     "A" pendA (by simp) (List.mem_singleton.2 rfl) (by norm_num [pendA])⟩

/-- C9: with a stage-1 record and the current price at or below the dip
threshold, `check_split_buy_opportunity` places exactly one buy order, whose
quantity is `max 1 ⌊fullQty × (1 − splitBuyFirstRatio)⌋` with `fullQty`
freshly recomputed by `calculate_buy_qty`; in particular a raising cash fetch
makes `fullQty` 0 and an order for exactly 1 share is still placed. -/
theorem C9_split_buy_min_one :
    (∀ (symbol : String) (market : Market) (cfg : ExecConfig) (cfgR : RiskConfig)
       (price : ℚ) (cashFetch : Option CashInfo) (outcome : Option OrderResult)
       (now : ℚ) (es : ExecState) (si : StageInfo),
      alistGet? es.positionStages symbol = some si →
      si.stage < 2 →
      price ≤ si.firstBuyPrice * (1 - cfg.splitBuyDipPct / 100) →
      cfg.splitBuyFirstRatio ≤ 1 →
      (checkSplitBuyOpportunity symbol market cfg cfgR (some price) cashFetch
          outcome now es).2.2.map BrokerOp.opQty =
        [max 1 ⌊((calculateBuyQty cfgR cashFetch now es.risk price market).2 : ℚ) *
          (1 - cfg.splitBuyFirstRatio)⌋]) ∧
    (calculateBuyQty {} none 0 {} 98 Market.KR).2 = 0 ∧
    (checkSplitBuyOpportunity "A" Market.KR {} {} (some 98) none
        (some { success := true }) 0
        { positionStages := [("A", stageA)] }).2.2.map BrokerOp.opQty = [1] := by
  have main : ∀ (symbol : String) (market : Market) (cfg : ExecConfig)
      (cfgR : RiskConfig) (price : ℚ) (cashFetch : Option CashInfo)
      (outcome : Option OrderResult) (now : ℚ) (es : ExecState) (si : StageInfo),
      alistGet? es.positionStages symbol = some si →
      si.stage < 2 →
      price ≤ si.firstBuyPrice * (1 - cfg.splitBuyDipPct / 100) →
      cfg.splitBuyFirstRatio ≤ 1 →
      (checkSplitBuyOpportunity symbol market cfg cfgR (some price) cashFetch
          outcome now es).2.2.map BrokerOp.opQty =
        [max 1 ⌊((calculateBuyQty cfgR cashFetch now es.risk price market).2 : ℚ) *
          (1 - cfg.splitBuyFirstRatio)⌋] := by
    intro symbol market cfg cfgR price cashFetch outcome now es si hGet hStage hDip
      hRatio
    have hq : (0 : ℚ) ≤
        ((calculateBuyQty cfgR cashFetch now es.risk price market).2 : ℚ) *
          (1 - cfg.splitBuyFirstRatio) := by
      have h1 : (0 : ℚ) ≤
          ((calculateBuyQty cfgR cashFetch now es.risk price market).2 : ℚ) := by
        exact_mod_cast calculateBuyQty_nonneg cfgR cashFetch now es.risk price market
      have h2 : (0 : ℚ) ≤ 1 - cfg.splitBuyFirstRatio := by linarith
      exact mul_nonneg h1 h2
    simp only [checkSplitBuyOpportunity, hGet]
    rw [if_neg (by omega), if_neg (not_lt.mpr hDip), pyInt_eq_floor hq]
    cases market with
    | KR =>
        by_cases hLim : cfg.limitOrderEnabled = true
        · simp only [hLim, if_true]
          cases outcome with
          | none => simp [BrokerOp.opQty]
          | some order =>
              by_cases hS : order.success = true <;>
                simp [hS, BrokerOp.opQty]
        · simp only [hLim, Bool.false_eq_true, if_false]
          cases outcome with
          | none => simp [BrokerOp.opQty]
          | some order =>
              by_cases hS : order.success = true <;>
                simp [hS, BrokerOp.opQty]
    | US =>
        cases outcome with
        | none => simp [BrokerOp.opQty]
        | some order =>
            by_cases hS : order.success = true <;>
              simp [hS, BrokerOp.opQty]
  refine ⟨main, rfl, ?_⟩
  have inst := main "A" Market.KR {} {} 98 none (some { success := true }) 0
    { positionStages := [("A", stageA)] } stageA
    (by simp [alistGet?, List.find?]) (by norm_num [stageA])
    (by norm_num [stageA]) (by norm_num)
  rw [inst]
  norm_num [calculateBuyQty, getCashInfo]

/-- C9 witness: the general order-quantity statement evaluated at the
zero-quantity scenario — stage-1 record at 100, price 98, raising cash fetch. -/
theorem C9_witness :
    alistGet? ([("A", stageA)] : List (String × StageInfo)) "A" = some stageA ∧
    stageA.stage < 2 ∧
    (98 : ℚ) ≤ stageA.firstBuyPrice * (1 - ExecConfig.splitBuyDipPct {} / 100) ∧
    ExecConfig.splitBuyFirstRatio {} ≤ 1 ∧
    (checkSplitBuyOpportunity "A" Market.KR {} {} (some 98) none
        (some { success := true }) 0
        { positionStages := [("A", stageA)] }).2.2.map BrokerOp.opQty =
      [max 1 ⌊((calculateBuyQty {} none 0
          (ExecState.risk { positionStages := [("A", stageA)] }) 98 Market.KR).2 : ℚ) *
        (1 - ExecConfig.splitBuyFirstRatio {})⌋] :=
  ⟨by simp [alistGet?, List.find?], by norm_num [stageA],
   by norm_num [stageA], by norm_num,
   C9_split_buy_min_one.1 "A" Market.KR {} {} 98 none (some { success := true }) 0
     { positionStages := [("A", stageA)] } stageA (by simp [alistGet?, List.find?])
     (by norm_num [stageA]) (by norm_num [stageA]) (by norm_num)⟩

/-- C1 witness: the round-down statement evaluated at price 20,037 and the
take-profit limit-sell price shape at a concrete call with limit orders
enabled. -/
theorem C1_witness :
    (round_kr_tick 20037 = 20037 - 20037 % krTick 20037 ∧
      krTick 20037 ∣ round_kr_tick 20037 ∧
      round_kr_tick 20037 ≤ 20037 ∧ 20037 - round_kr_tick 20037 < krTick 20037) ∧
    ExecConfig.limitOrderEnabled {} = true ∧
    (executeTakeProfit "A" Market.KR 10 {} (some 20037) (some failedOrder) 0
        { positionStages := [("A", stageA)] }).2.2.map BrokerOp.opPrice =
      [round_kr_tick (pyInt ((20037 : ℚ) *
        (1 + (if !ExecConfig.isLive {} then 0 else ExecConfig.limitTpOffsetPct {}) /
          100)))] :=
  ⟨C1_tick_rounding.1 20037, rfl,
   C1_tick_rounding.2.2.2.1 "A" 10 {} 20037 (some failedOrder) 0
     { positionStages := [("A", stageA)] } rfl⟩

end StockTrader
